import Mathlib

/-!
Shallow embedding of the `railed` rail-network simulator (Python sources under
`src/rail_sim` and `src/src/rail_sim`) together with proofs checking the
natural-language specification against the code.

Conventions of the embedding:
* Python `float` times are modelled by `ℚ` (all comparisons and arithmetic used
  by the simulator are exact on the inputs considered).
* Python lists used as stacks (`append`/`pop`) are modelled by Lean `List`s in
  the same order: push is `l ++ [x]`, pop reads `l.getLast?` and keeps
  `l.dropLast`.
* Python dicts are modelled by association lists in insertion order.
* A Python `set` has an unspecified iteration order; `list(someSet)` is
  modelled by an enumeration function `Finset ℕ → List ℕ` that is assumed only
  to produce a duplicate-free listing of the set's members.
* Fallible operations (exceptions) return `Option`/a `none` marker, keeping the
  partially mutated state where the Python object would keep it.
-/

/-! ### Record store: `src/src/rail_sim/memmap_schema.py` -/

/-- One row of the customer memmap (`CUSTOMER_DTYPE`). -/
structure CustomerRecord where
  id : Nat
  origin_station_id : Nat
  dest_station_id : Nat
  current_station_id : Nat
  on_train_id : Nat
  state : Nat
  tap_on_ts : ℚ
  tap_off_ts : ℚ
  spawn_ts : ℚ
  path_id : Nat
  total_wait_time : ℚ
  total_travel_time : ℚ
  movement_speed : ℚ
  deriving Repr, DecidableEq, Inhabited

/-- The all-zero row; `memmap[idx] = 0` assigns this. -/
def CustomerRecord.zero : CustomerRecord :=
  ⟨0, 0, 0, 0, 0, 0, 0, 0, 0, 0, 0, 0, 0⟩

/-- `MemmapAllocator` state.  The Python object also stores a file path and a
`capacity` field; the capacity always equals `len(self.memmap)`, which here is
`memmap.length`, and the file itself is I/O, so both are left out. -/
structure MemmapAllocator where
  memmap : List CustomerRecord
  free_indices : List Nat
  next_id : Nat
  deriving Repr, DecidableEq

namespace MemmapAllocator

/-- A fresh allocator (`mode='w+'` branch of `__init__`): zeroed rows, empty
free list, `next_id = 1`. -/
def init (capacity : Nat) : MemmapAllocator :=
  ⟨List.replicate capacity CustomerRecord.zero, [], 1⟩

/-- `get_next_id`: returns `next_id` and increments it. -/
def get_next_id (a : MemmapAllocator) : Nat × MemmapAllocator :=
  (a.next_id, { a with next_id := a.next_id + 1 })

/-- The scan `for idx in range(self.capacity): if self.memmap['id'][idx] == 0`:
index of the first row whose `id` field is `0`. -/
def firstFreeSlot : List CustomerRecord → Option Nat
  | [] => none
  | r :: rs => if r.id = 0 then some 0 else (firstFreeSlot rs).map (· + 1)

/-- `allocate_index`: pop the free stack if non-empty, else claim the first
row with `id == 0`, stamping it with a fresh id.  `none` models the
`RuntimeError("Memmap capacity exceeded")`. -/
def allocate_index (a : MemmapAllocator) : Option (Nat × MemmapAllocator) :=
  match a.free_indices.getLast? with
  | some idx => some (idx, { a with free_indices := a.free_indices.dropLast })
  | none =>
    match firstFreeSlot a.memmap with
    | some idx =>
      let (cid, a1) := a.get_next_id
      some (idx, { a1 with
        memmap := a1.memmap.set idx { a1.memmap.getD idx CustomerRecord.zero with id := cid } })
    | none => none

/-- `allocate_indices(n)`: `n` successive `allocate_index` calls.  On failure
the partially mutated allocator is kept (the Python exception propagates). -/
def allocate_indices (a : MemmapAllocator) : Nat → Option (List Nat) × MemmapAllocator
  | 0 => (some [], a)
  | n + 1 =>
    match allocate_index a with
    | none => (none, a)
    | some (i, a1) =>
      let (r, a2) := allocate_indices a1 n
      (r.map (i :: ·), a2)

/-- `release_index(idx)`: zero the whole row and push `idx` on the free stack. -/
def release_index (a : MemmapAllocator) (idx : Nat) : MemmapAllocator :=
  { a with
    memmap := a.memmap.set idx CustomerRecord.zero
    free_indices := a.free_indices ++ [idx] }

/-- `release_index` over a list of indices, in order. -/
def releaseAll (a : MemmapAllocator) (l : List Nat) : MemmapAllocator :=
  l.foldl release_index a

end MemmapAllocator

namespace MemmapAllocator

theorem releaseAll_free (a : MemmapAllocator) (l : List Nat) :
    (releaseAll a l).free_indices = a.free_indices ++ l ∧
      (releaseAll a l).next_id = a.next_id := by
  induction l generalizing a with
  | nil => simp [releaseAll]
  | cons x xs ih =>
    have h := ih (release_index a x)
    simpa [releaseAll, release_index, List.append_assoc] using h

/-- Draining the free stack: if the free stack is `f ++ l`, the next
`l.length` allocations return `l.reverse`, leave the memmap and `next_id`
untouched, and leave `f` on the stack. -/
theorem allocate_indices_drain (l f : List Nat) (a : MemmapAllocator)
    (hfree : a.free_indices = f ++ l) :
    (allocate_indices a l.length).1 = some l.reverse ∧
      (allocate_indices a l.length).2.free_indices = f ∧
      (allocate_indices a l.length).2.memmap = a.memmap ∧
      (allocate_indices a l.length).2.next_id = a.next_id := by
  induction l using List.reverseRecOn generalizing f a with
  | nil =>
    refine ⟨rfl, ?_, rfl, rfl⟩
    simpa using hfree
  | append_singleton l x ih =>
    have hne : a.free_indices.getLast? = some x := by
      rw [hfree, ← List.append_assoc]
      exact List.getLast?_concat _
    have hdrop : a.free_indices.dropLast = f ++ l := by
      rw [hfree, ← List.append_assoc]
      exact List.dropLast_concat
    have hlen : (l ++ [x]).length = l.length + 1 := by simp
    rw [hlen]
    have hstep : allocate_index a =
        some (x, { a with free_indices := a.free_indices.dropLast }) := by
      unfold allocate_index
      rw [hne]
    have ih' := ih (a := { a with free_indices := a.free_indices.dropLast })
      (f := f) (by simpa using hdrop)
    unfold allocate_indices
    rw [hstep]
    rcases h2 : allocate_indices { a with free_indices := a.free_indices.dropLast } l.length
      with ⟨r, a2⟩
    rw [h2] at ih'
    obtain ⟨h₁, h₂, h₃, h₄⟩ := ih'
    simp only [h2, h₁, h₂, h₃, h₄]
    simp only at h₁ h₂ h₃ h₄
    simp [h₁, h₂, h₃, h₄]

end MemmapAllocator

namespace MemmapAllocator

theorem firstFreeSlot_at (mem : List CustomerRecord) (j : Nat)
    (hj : j < mem.length)
    (hfree : (mem.getD j CustomerRecord.zero).id = 0)
    (hbefore : ∀ i, i < j → (mem.getD i CustomerRecord.zero).id ≠ 0) :
    firstFreeSlot mem = some j := by
  induction mem generalizing j with
  | nil => simp at hj
  | cons r rs ih =>
    cases j with
    | zero =>
      have h0 : r.id = 0 := by simpa [List.getD] using hfree
      simp [firstFreeSlot, h0]
    | succ j' =>
      have h0 : r.id ≠ 0 := by
        have := hbefore 0 (Nat.succ_pos _)
        simpa [List.getD] using this
      have hj' : j' < rs.length := Nat.lt_of_succ_lt_succ hj
      have hfree' : (rs.getD j' CustomerRecord.zero).id = 0 := by
        simpa [List.getD] using hfree
      have hbefore' : ∀ i, i < j' → (rs.getD i CustomerRecord.zero).id ≠ 0 := by
        intro i hi
        have := hbefore (i + 1) (Nat.succ_lt_succ hi)
        simpa [List.getD] using this
      simp [firstFreeSlot, h0, ih j' hj' hfree' hbefore']

end MemmapAllocator

/-- **C1.** Record-store allocation discipline (`MemmapAllocator` of
`src/src/rail_sim/memmap_schema.py`):
(1) immediately after `release_index idx` the next `allocate_index` returns
`idx` and restores the previous free stack;
(2) after releasing `i1..ik` the next `k` allocations return `ik..i1`
(LIFO) without touching the rows or the id counter;
(3) when the free stack is empty, `allocate_index` returns the lowest index
whose `id` field is 0 and stamps it with the fresh id `next_id`;
(4) `release_index idx` zeroes the whole row `idx` and pushes `idx` on the
free stack. -/
theorem C1_allocation_discipline :
    (∀ (a : MemmapAllocator) (idx : Nat),
      (a.release_index idx).allocate_index =
        some (idx, ⟨a.memmap.set idx CustomerRecord.zero, a.free_indices, a.next_id⟩)) ∧
    (∀ (a : MemmapAllocator) (l : List Nat),
      ((a.releaseAll l).allocate_indices l.length).1 = some l.reverse ∧
      ((a.releaseAll l).allocate_indices l.length).2.free_indices = a.free_indices ∧
      ((a.releaseAll l).allocate_indices l.length).2.next_id = a.next_id) ∧
    (∀ (a : MemmapAllocator) (j : Nat),
      a.free_indices = [] →
      j < a.memmap.length →
      (a.memmap.getD j CustomerRecord.zero).id = 0 →
      (∀ i, i < j → (a.memmap.getD i CustomerRecord.zero).id ≠ 0) →
      ∃ a', a.allocate_index = some (j, a') ∧
        (a'.memmap.getD j CustomerRecord.zero).id = a.next_id ∧
        a'.next_id = a.next_id + 1) ∧
    (∀ (a : MemmapAllocator) (idx : Nat),
      idx < a.memmap.length →
      (a.release_index idx).memmap.getD idx CustomerRecord.zero = CustomerRecord.zero ∧
      (a.release_index idx).free_indices = a.free_indices ++ [idx]) := by
  refine ⟨?_, ?_, ?_, ?_⟩
  · intro a idx
    unfold MemmapAllocator.release_index MemmapAllocator.allocate_index
    simp [List.getLast?_concat, List.dropLast_concat]
  · intro a l
    have hfree := (MemmapAllocator.releaseAll_free a l).1
    have hnid := (MemmapAllocator.releaseAll_free a l).2
    have h := MemmapAllocator.allocate_indices_drain l a.free_indices (a.releaseAll l) hfree
    exact ⟨h.1, h.2.1, h.2.2.2.trans hnid⟩
  · intro a j hempty hj hid hbefore
    have hslot := MemmapAllocator.firstFreeSlot_at a.memmap j hj hid hbefore
    refine ⟨⟨a.memmap.set j { a.memmap.getD j CustomerRecord.zero with id := a.next_id },
      a.free_indices, a.next_id + 1⟩, ?_, ?_, rfl⟩
    · unfold MemmapAllocator.allocate_index
      rw [hempty]
      simp [hslot, MemmapAllocator.get_next_id, hempty]
    · simp only [List.getD, List.get?_eq_getElem?]
      rw [List.getElem?_set_eq_of_lt _ hj]
      rfl
  · intro a idx hlt
    constructor
    · simp only [MemmapAllocator.release_index, List.getD, List.get?_eq_getElem?]
      rw [List.getElem?_set_eq_of_lt _ (by simpa using hlt)]
      rfl
    · rfl

/-- Witness for C1 at a concrete allocator: capacity 4, rows 0 and 1 live,
release 1 then 0, reallocate in LIFO order; scan allocation picks row 2. -/
theorem C1_allocation_discipline_witness :
    (((MemmapAllocator.init 4).release_index 3).allocate_index =
      some (3, ⟨(MemmapAllocator.init 4).memmap.set 3 CustomerRecord.zero, [], 1⟩)) ∧
    (((MemmapAllocator.init 4).releaseAll [0, 1]).allocate_indices 2).1 = some [1, 0] ∧
    (∃ a', (MemmapAllocator.init 4).allocate_index = some (0, a') ∧
      (a'.memmap.getD 0 CustomerRecord.zero).id = 1 ∧ a'.next_id = 2) ∧
    ((MemmapAllocator.init 4).release_index 2).memmap.getD 2 CustomerRecord.zero =
      CustomerRecord.zero := by
  refine ⟨C1_allocation_discipline.1 (MemmapAllocator.init 4) 3, ?_, ?_, ?_⟩
  · exact (C1_allocation_discipline.2.1 (MemmapAllocator.init 4) [0, 1]).1
  · exact C1_allocation_discipline.2.2.1 (MemmapAllocator.init 4) 0 rfl (by decide)
      (by decide) (by intro i hi; omega)
  · exact (C1_allocation_discipline.2.2.2 (MemmapAllocator.init 4) 2 (by decide)).1

/-! ### Train generator: `src/rail_sim/train_gen.py` -/

/-- A `TrainMake` dispatch event.  The `timetable` field is always `[]` when
emitted (it is filled in later by the simulation loop) and is omitted. -/
structure TrainMake where
  train_id : Nat
  line_id : String
  direction : Int
  depart_time : ℚ
  max_capacity : Nat
  deriving Repr, DecidableEq

/-- Width of `f"{c:04d}"`: at least four digits. -/
def padWidth (c : Nat) : Nat := max 4 (Nat.log 10 c + 1)

/-- `_create_train_id`: `int(f"{hash(self.line_id) % 1000}{counter:04d}")`.
`hash` is Python's per-process salted string hash; its value enters as the
parameter `hashVal`.  Python `%` with positive modulus agrees with
`Int.emod`. -/
def createTrainId (hashVal : Int) (counter : Nat) : Nat :=
  (hashVal.emod 1000).toNat * 10 ^ padWidth counter + counter

/-- `TrainGenerator` state.  `schedule_policy` is a dict read with defaults
`headway=600`, `service_hours=(0,24)`, `capacity=1000`; its three entries are
inlined as fields.  `last_departure_time` maps direction `1`/`-1` to a time,
initialised to `-inf`, modelled by `Option ℚ` with `none = -inf`. -/
structure TrainGenerator where
  line_id : String
  hash_val : Int
  fleet_size : Nat
  headway : ℚ
  service_start : ℚ
  service_end : ℚ
  capacity : Nat
  active_trains : Finset Nat
  idle_pool : List Nat
  train_id_counter : Nat
  last_departure_pos : Option ℚ
  last_departure_neg : Option ℚ
  deriving DecidableEq

namespace TrainGenerator

/-- `__init__`: empty fleet bookkeeping, `last_departure_time = -inf` both ways. -/
def init (line_id : String) (hash_val : Int) (fleet_size : Nat)
    (headway service_start service_end : ℚ) (capacity : Nat) : TrainGenerator :=
  ⟨line_id, hash_val, fleet_size, headway, service_start, service_end, capacity,
    ∅, [], 0, none, none⟩

/-- `self.last_departure_time[direction]`. -/
def lastDep (g : TrainGenerator) (d : Int) : Option ℚ :=
  if d = 1 then g.last_departure_pos else g.last_departure_neg

/-- `self.last_departure_time[direction] = current_time`. -/
def setLastDep (g : TrainGenerator) (d : Int) (t : ℚ) : TrainGenerator :=
  if d = 1 then { g with last_departure_pos := some t }
  else { g with last_departure_neg := some t }

/-- Python float `%` (floor modulo) for a positive modulus. -/
def pyMod (x y : ℚ) : ℚ := x - y * ⌊x / y⌋

/-- `hour = (current_time / 3600) % 24`. -/
def hourOfDay (t : ℚ) : ℚ := pyMod (t / 3600) 24

/-- `current_time - self.last_departure_time[direction] >= headway`
(`-inf` makes the difference `+inf`, hence always large enough). -/
def headwayOk (g : TrainGenerator) (d : Int) (t : ℚ) : Bool :=
  match g.lastDep d with
  | none => true
  | some t0 => decide (g.headway ≤ t - t0)

/-- `allocate_train`: pop the idle pool, else mint a new id while the fleet
has room; `none` is the `return None` branch. -/
def allocate_train (g : TrainGenerator) : Option (Nat × TrainGenerator) :=
  match g.idle_pool.getLast? with
  | some tid =>
    some (tid, { g with idle_pool := g.idle_pool.dropLast,
                        active_trains := insert tid g.active_trains })
  | none =>
    if g.active_trains.card < g.fleet_size then
      let tid := createTrainId g.hash_val (g.train_id_counter + 1)
      some (tid, { g with train_id_counter := g.train_id_counter + 1,
                          active_trains := insert tid g.active_trains })
    else none

/-- `release_train`: `active_trains.discard`, push on the idle pool. -/
def release_train (g : TrainGenerator) (tid : Nat) : TrainGenerator :=
  { g with active_trains := g.active_trains.erase tid,
           idle_pool := g.idle_pool ++ [tid] }

/-- `_create_make_event`. -/
def create_make_event (g : TrainGenerator) (tid : Nat) (t : ℚ) (d : Int) : TrainMake :=
  ⟨tid, g.line_id, d, t, g.capacity⟩

/-- One iteration of `tick`'s `for direction in [1, -1]` loop. -/
def tickDir (g : TrainGenerator) (t : ℚ) (d : Int) : List TrainMake × TrainGenerator :=
  if g.active_trains.card < g.fleet_size then
    if g.headwayOk d t then
      match g.allocate_train with
      | some (tid, g1) => ([g1.create_make_event tid t d], g1.setLastDep d t)
      | none => ([], g)
    else ([], g)
  else ([], g)

/-- `tick(current_time)`: service-hour gate, then the two directions in the
fixed order `+1`, `-1`. -/
def tick (g : TrainGenerator) (t : ℚ) : List TrainMake × TrainGenerator :=
  if hourOfDay t < g.service_start ∨ hourOfDay t ≥ g.service_end then ([], g)
  else
    let r1 := g.tickDir t 1
    let r2 := r1.2.tickDir t (-1)
    (r1.1 ++ r2.1, r2.2)

/-- A whole run: `tick` at each time in order, collecting the events per tick. -/
def runGen (g : TrainGenerator) : List ℚ → List (List TrainMake) × TrainGenerator
  | [] => ([], g)
  | t :: ts =>
    let r1 := g.tick t
    let r2 := r1.2.runGen ts
    (r1.1 :: r2.1, r2.2)

/-- Departure times of the direction-`d` events of one tick's event list. -/
def dirTimes (d : Int) (ms : List TrainMake) : List ℚ :=
  (ms.filter (fun m => m.direction == d)).map (·.depart_time)

/-- Departure times of all direction-`d` events of a run, in emission order. -/
def depTimes (d : Int) (trace : List (List TrainMake)) : List ℚ :=
  (trace.map (dirTimes d)).flatten

end TrainGenerator

namespace TrainGenerator

theorem setLastDep_self (g : TrainGenerator) (d : Int) (t : ℚ) :
    (g.setLastDep d t).lastDep d = some t := by
  unfold setLastDep lastDep
  by_cases hd : d = 1 <;> simp [hd]

theorem allocate_train_fields {g g1 : TrainGenerator} {tid : Nat}
    (h : g.allocate_train = some (tid, g1)) :
    g1.last_departure_pos = g.last_departure_pos ∧
    g1.last_departure_neg = g.last_departure_neg ∧
    g1.headway = g.headway ∧ g1.fleet_size = g.fleet_size ∧
    g1.service_start = g.service_start ∧ g1.service_end = g.service_end := by
  unfold allocate_train at h
  cases hp : g.idle_pool.getLast? with
  | some tid' =>
    rw [hp] at h
    simp only [Option.some.injEq, Prod.mk.injEq] at h
    obtain ⟨-, h2⟩ := h
    subst h2
    exact ⟨rfl, rfl, rfl, rfl, rfl, rfl⟩
  | none =>
    rw [hp] at h
    by_cases hc : g.active_trains.card < g.fleet_size
    · rw [if_pos hc] at h
      simp only [Option.some.injEq, Prod.mk.injEq] at h
      obtain ⟨-, h2⟩ := h
      subst h2
      exact ⟨rfl, rfl, rfl, rfl, rfl, rfl⟩
    · rw [if_neg hc] at h
      cases h

theorem tickDir_shape (g : TrainGenerator) (t : ℚ) (d : Int) :
    g.tickDir t d = ([], g) ∨
    ∃ tid g1, g.allocate_train = some (tid, g1) ∧
      g.tickDir t d = ([g1.create_make_event tid t d], g1.setLastDep d t) ∧
      g.active_trains.card < g.fleet_size ∧ g.headwayOk d t = true := by
  unfold tickDir
  split
  · split
    · cases ha : g.allocate_train with
      | none => exact Or.inl rfl
      | some p =>
        obtain ⟨tid, g1⟩ := p
        exact Or.inr ⟨tid, g1, rfl, rfl, ‹_›, ‹_›⟩
    · exact Or.inl rfl
  · exact Or.inl rfl

theorem tickDir_nil {g : TrainGenerator} {t : ℚ} {d : Int}
    (h : (g.tickDir t d).1 = []) : g.tickDir t d = ([], g) := by
  rcases tickDir_shape g t d with h0 | ⟨tid, g1, _, h0, _, _⟩
  · exact h0
  · rw [h0] at h; cases h

theorem headwayOk_cases {g : TrainGenerator} {d : Int} {t : ℚ}
    (h : g.headwayOk d t = true) :
    g.lastDep d = none ∨ ∃ t0, g.lastDep d = some t0 ∧ g.headway ≤ t - t0 := by
  unfold headwayOk at h
  cases hl : g.lastDep d with
  | none => exact Or.inl rfl
  | some t0 =>
    rw [hl] at h
    exact Or.inr ⟨t0, rfl, of_decide_eq_true h⟩

theorem tickDir_emit {g : TrainGenerator} {t : ℚ} {d : Int} {m : TrainMake}
    (h : (g.tickDir t d).1 = [m]) :
    m.direction = d ∧ m.depart_time = t ∧
    (g.tickDir t d).2.lastDep d = some t ∧
    (g.lastDep d = none ∨ ∃ t0, g.lastDep d = some t0 ∧ g.headway ≤ t - t0) ∧
    g.active_trains.card < g.fleet_size := by
  rcases tickDir_shape g t d with h0 | ⟨tid, g1, _, h0, hcard, hok⟩
  · rw [h0] at h; cases h
  · rw [h0] at h
    simp only [List.cons.injEq, and_true] at h
    subst h
    refine ⟨rfl, rfl, ?_, headwayOk_cases hok, hcard⟩
    rw [h0]
    exact setLastDep_self g1 d t

theorem tickDir_preserves_neg (g : TrainGenerator) (t : ℚ) :
    ((g.tickDir t 1).2).lastDep (-1) = g.lastDep (-1) := by
  rcases tickDir_shape g t 1 with h0 | ⟨tid, g1, ha, h0, _, _⟩
  · rw [h0]
  · rw [h0]
    have hf := allocate_train_fields ha
    simp [setLastDep, lastDep, hf.2.1]

theorem tickDir_preserves_pos (g : TrainGenerator) (t : ℚ) :
    ((g.tickDir t (-1)).2).lastDep 1 = g.lastDep 1 := by
  rcases tickDir_shape g t (-1) with h0 | ⟨tid, g1, ha, h0, _, _⟩
  · rw [h0]
  · rw [h0]
    have hf := allocate_train_fields ha
    simp [setLastDep, lastDep, hf.1]

theorem tickDir_headway (g : TrainGenerator) (t : ℚ) (d : Int) :
    (g.tickDir t d).2.headway = g.headway := by
  rcases tickDir_shape g t d with h0 | ⟨tid, g1, ha, h0, _, _⟩
  · rw [h0]
  · rw [h0]
    have hf := allocate_train_fields ha
    by_cases hd : d = 1 <;> simp [setLastDep, hd, hf.2.2.1]

theorem tick_headway (g : TrainGenerator) (t : ℚ) :
    (g.tick t).2.headway = g.headway := by
  unfold tick
  split
  · rfl
  · rcases h1 : g.tickDir t 1 with ⟨m1, g1⟩
    rcases h2 : g1.tickDir t (-1) with ⟨m2, g2⟩
    have e1 := tickDir_headway g t 1
    have e2 := tickDir_headway g1 t (-1)
    rw [h1] at e1
    rw [h2] at e2
    simp only [h1, h2]
    exact e2.trans e1

theorem dirTimes_nil (d : Int) : dirTimes d [] = [] := rfl

theorem dirTimes_append (d : Int) (a b : List TrainMake) :
    dirTimes d (a ++ b) = dirTimes d a ++ dirTimes d b := by
  simp [dirTimes]

theorem dirTimes_single_eq {d : Int} {m : TrainMake} (h : m.direction = d) :
    dirTimes d [m] = [m.depart_time] := by
  simp [dirTimes, h]

theorem dirTimes_single_ne {d : Int} {m : TrainMake} (h : m.direction ≠ d) :
    dirTimes d [m] = [] := by
  simp [dirTimes, h]

theorem tick_summary (g : TrainGenerator) (t : ℚ) (d : Int) (hd : d = 1 ∨ d = -1) :
    (dirTimes d (g.tick t).1 = [] ∧ (g.tick t).2.lastDep d = g.lastDep d) ∨
    (dirTimes d (g.tick t).1 = [t] ∧ (g.tick t).2.lastDep d = some t ∧
      (g.lastDep d = none ∨ ∃ t0, g.lastDep d = some t0 ∧ g.headway ≤ t - t0)) := by
  unfold tick
  split
  · exact Or.inl ⟨rfl, rfl⟩
  · rcases h1 : g.tickDir t 1 with ⟨m1, g1⟩
    rcases h2 : g1.tickDir t (-1) with ⟨m2, g2⟩
    simp only [h1, h2, dirTimes_append]
    have hshape1 := tickDir_shape g t 1
    have hshape2 := tickDir_shape g1 t (-1)
    rcases hd with hd | hd
    · subst hd
      -- direction +1: events of the second loop iteration have direction -1
      have hm2 : dirTimes 1 m2 = [] := by
        rcases hshape2 with h0 | ⟨tid, ga, _, h0, _, _⟩
        · rw [h2] at h0
          cases h0
          rfl
        · rw [h2] at h0
          cases h0
          exact dirTimes_single_ne (by simp [create_make_event])
      have hpres : g2.lastDep 1 = g1.lastDep 1 := by
        have := tickDir_preserves_pos g1 t
        rw [h2] at this
        exact this
      rcases hshape1 with h0 | ⟨tid, ga, ha, h0, hcard, hok⟩
      · rw [h1] at h0
        cases h0
        exact Or.inl ⟨by simp [hm2, dirTimes_nil], hpres⟩
      · rw [h1] at h0
        injection h0 with hml hgl
        have hemit : (g.tickDir t 1).1 = [ga.create_make_event tid t 1] := by
          rw [h1, hml]
        have he := tickDir_emit hemit
        refine Or.inr ⟨?_, ?_, he.2.2.2.1⟩
        · rw [hml, hm2, dirTimes_single_eq he.1, List.append_nil, he.2.1]
        · rw [hpres]
          have h3 := he.2.2.1
          rw [h1] at h3
          exact h3
    · subst hd
      -- direction -1: events of the first loop iteration have direction +1
      have hm1 : dirTimes (-1) m1 = [] := by
        rcases hshape1 with h0 | ⟨tid, ga, _, h0, _, _⟩
        · rw [h1] at h0
          cases h0
          rfl
        · rw [h1] at h0
          cases h0
          exact dirTimes_single_ne (by simp [create_make_event])
      have hpres : g1.lastDep (-1) = g.lastDep (-1) := by
        have := tickDir_preserves_neg g t
        rw [h1] at this
        exact this
      have hhead1 : g1.headway = g.headway := by
        have := tickDir_headway g t 1
        rw [h1] at this
        exact this
      rcases hshape2 with h0 | ⟨tid, ga, ha, h0, hcard, hok⟩
      · rw [h2] at h0
        cases h0
        exact Or.inl ⟨by simp [hm1, dirTimes_nil], by rw [hpres]⟩
      · rw [h2] at h0
        injection h0 with hml hgl
        have hemit : (g1.tickDir t (-1)).1 = [ga.create_make_event tid t (-1)] := by
          rw [h2, hml]
        have he := tickDir_emit hemit
        refine Or.inr ⟨?_, ?_, ?_⟩
        · rw [hml, hm1, dirTimes_single_eq he.1]
          simp [he.2.1]
        · have h3 := he.2.2.1
          rw [h2] at h3
          exact h3
        · rw [← hpres, ← hhead1]
          exact he.2.2.2.1

end TrainGenerator

namespace TrainGenerator

theorem runGen_sep_aux (d : Int) (hd : d = 1 ∨ d = -1) (h : ℚ) (hh : 0 ≤ h) :
    ∀ (ts : List ℚ) (g : TrainGenerator) (l : List ℚ),
      g.headway = h →
      l.Pairwise (fun a b => a + h ≤ b) →
      (g.lastDep d = none → l = []) →
      (∀ τ, g.lastDep d = some τ → ∀ x ∈ l, x ≤ τ) →
      (l ++ depTimes d (g.runGen ts).1).Pairwise (fun a b => a + h ≤ b) := by
  intro ts
  induction ts with
  | nil =>
    intro g l _ hp _ _
    simpa [runGen, depTimes] using hp
  | cons t ts ih =>
    intro g l hhead hp hnone hsome
    rcases hT : g.tick t with ⟨ms, g1⟩
    rcases hR : g1.runGen ts with ⟨rest, g2⟩
    have hrun : g.runGen (t :: ts) = (ms :: rest, g2) := by
      simp [runGen, hT, hR]
    rw [hrun]
    have hdt : depTimes d (ms :: rest) = dirTimes d ms ++ depTimes d rest := by
      simp [depTimes]
    simp only [hdt]
    rw [← List.append_assoc]
    have hhead1 : g1.headway = h := by
      have := tick_headway g t
      rw [hT] at this
      simpa [hhead] using this
    have hsum := tick_summary g t d hd
    rw [hT] at hsum
    simp only at hsum
    have hrest : (g1.runGen ts).1 = rest := by rw [hR]
    rw [← hrest]
    rcases hsum with ⟨he, hl⟩ | ⟨he, hl, hcond⟩
    · rw [he, List.append_nil]
      refine ih g1 l hhead1 hp ?_ ?_
      · intro hn
        exact hnone (hl ▸ hn)
      · intro τ hτ
        exact hsome τ (hl ▸ hτ)
    · rw [he]
      have hbound : ∀ x ∈ l, x + h ≤ t := by
        intro x hx
        rcases hcond with hcnone | ⟨t0, ht0, hsep⟩
        · rw [hnone hcnone] at hx
          cases hx
        · have hx0 : x ≤ t0 := hsome t0 ht0 x hx
          have : t0 + h ≤ t := by
            rw [hhead] at hsep
            linarith
          linarith
      have hp' : (l ++ [t]).Pairwise (fun a b => a + h ≤ b) := by
        rw [List.pairwise_append]
        exact ⟨hp, List.pairwise_singleton _ _, by
          intro a ha b hb
          rw [List.mem_singleton] at hb
          subst hb
          exact hbound a ha⟩
      refine ih g1 (l ++ [t]) hhead1 hp' ?_ ?_
      · intro hn
        rw [hl] at hn
        cases hn
      · intro τ hτ
        rw [hl] at hτ
        injection hτ with hτ
        subst hτ
        intro x hx
        rcases List.mem_append.mp hx with hx | hx
        · have := hbound x hx
          linarith
        · rw [List.mem_singleton] at hx
          subst hx
          exact le_refl _

end TrainGenerator


namespace TrainGenerator

theorem setLastDep_fleet (g : TrainGenerator) (d : Int) (t : ℚ) :
    (g.setLastDep d t).fleet_size = g.fleet_size ∧
      (g.setLastDep d t).active_trains = g.active_trains := by
  unfold setLastDep
  by_cases hd : d = 1 <;> simp [hd]

theorem tickDir_fleet (g : TrainGenerator) (t : ℚ) (d : Int) :
    (g.tickDir t d).2.fleet_size = g.fleet_size := by
  rcases tickDir_shape g t d with h0 | ⟨tid, ga, ha, h0, _, _⟩ <;> rw [h0]
  have hf := allocate_train_fields ha
  exact (setLastDep_fleet ga d t).1.trans hf.2.2.2.1

theorem tick_out_of_hours {g : TrainGenerator} {t : ℚ}
    (h : hourOfDay t < g.service_start ∨ hourOfDay t ≥ g.service_end) :
    g.tick t = ([], g) := by
  unfold tick
  rw [if_pos h]

theorem tick_in_hours {g : TrainGenerator} {t : ℚ}
    (h : ¬(hourOfDay t < g.service_start ∨ hourOfDay t ≥ g.service_end))
    {m1 m2 : List TrainMake} {g1 g2 : TrainGenerator}
    (h1 : g.tickDir t 1 = (m1, g1)) (h2 : g1.tickDir t (-1) = (m2, g2)) :
    g.tick t = (m1 ++ m2, g2) := by
  unfold tick
  rw [if_neg h]
  simp [h1, h2]

end TrainGenerator

/-- **C2.** Dispatch discipline of `TrainGenerator.tick`
(`src/rail_sim/train_gen.py`):
(1) outside the service hours `[start_h, end_h)` of the hour-of-day
`(t/3600) % 24`, no make events are emitted and the state is untouched;
(2) the emitted directions form a sublist of `[1, -1]` (at most one event per
direction, considered in that fixed order);
(3) every emitted event departs at the tick's time, is emitted only if the
active fleet is below `fleet_size` (for direction `-1`: in the state reached
after the direction-`1` iteration) and only if
`t - last_departure_time[d] ≥ headway` (`-∞` initially), and the tick sets
`last_departure_time[d] = t`;
(4) hence over any run, the departure times of the make events in one
direction are pairwise at least `headway` apart. -/
theorem C2_dispatch_discipline :
    (∀ (g : TrainGenerator) (t : ℚ),
      TrainGenerator.hourOfDay t < g.service_start ∨
        TrainGenerator.hourOfDay t ≥ g.service_end →
      g.tick t = ([], g)) ∧
    (∀ (g : TrainGenerator) (t : ℚ),
      ((g.tick t).1.map TrainMake.direction).Sublist [1, -1]) ∧
    (∀ (g : TrainGenerator) (t : ℚ) (m : TrainMake), m ∈ (g.tick t).1 →
      m.depart_time = t ∧
      (g.tick t).2.lastDep m.direction = some t ∧
      (g.lastDep m.direction = none ∨
        ∃ t0, g.lastDep m.direction = some t0 ∧ g.headway ≤ t - t0) ∧
      (m.direction = 1 → g.active_trains.card < g.fleet_size) ∧
      (m.direction = -1 → (g.tickDir t 1).2.active_trains.card < g.fleet_size)) ∧
    (∀ (g : TrainGenerator) (ts : List ℚ) (d : Int), d = 1 ∨ d = -1 →
      0 ≤ g.headway →
      (TrainGenerator.depTimes d (g.runGen ts).1).Pairwise
        (fun a b => a + g.headway ≤ b)) := by
  refine ⟨?_, ?_, ?_, ?_⟩
  · intro g t hout
    exact TrainGenerator.tick_out_of_hours hout
  · intro g t
    by_cases hhours : TrainGenerator.hourOfDay t < g.service_start ∨
        TrainGenerator.hourOfDay t ≥ g.service_end
    · rw [TrainGenerator.tick_out_of_hours hhours]
      simp
    · rcases h1 : g.tickDir t 1 with ⟨m1, g1⟩
      rcases h2 : g1.tickDir t (-1) with ⟨m2, g2⟩
      rw [TrainGenerator.tick_in_hours hhours h1 h2]
      have s1 : m1 = [] ∨ ∃ m, m1 = [m] ∧ m.direction = 1 := by
        rcases TrainGenerator.tickDir_shape g t 1 with h0 | ⟨tid, ga, _, h0, _, _⟩ <;>
          rw [h1] at h0
        · exact Or.inl (congrArg Prod.fst h0)
        · exact Or.inr ⟨_, congrArg Prod.fst h0, rfl⟩
      have s2 : m2 = [] ∨ ∃ m, m2 = [m] ∧ m.direction = -1 := by
        rcases TrainGenerator.tickDir_shape g1 t (-1) with h0 | ⟨tid, ga, _, h0, _, _⟩ <;>
          rw [h2] at h0
        · exact Or.inl (congrArg Prod.fst h0)
        · exact Or.inr ⟨_, congrArg Prod.fst h0, rfl⟩
      rcases s1 with rfl | ⟨ma, rfl, hma⟩
      · rcases s2 with rfl | ⟨mb, rfl, hmb⟩
        · simp
        · simp only [List.nil_append, List.map_cons, List.map_nil, hmb]
          decide
      · rcases s2 with rfl | ⟨mb, rfl, hmb⟩
        · simp only [List.append_nil, List.map_cons, List.map_nil, hma]
          decide
        · simp only [List.cons_append, List.nil_append, List.map_cons, List.map_nil, hma, hmb]
          decide
  · intro g t m hm
    by_cases hhours : TrainGenerator.hourOfDay t < g.service_start ∨
        TrainGenerator.hourOfDay t ≥ g.service_end
    · rw [TrainGenerator.tick_out_of_hours hhours] at hm
      cases hm
    · rcases h1 : g.tickDir t 1 with ⟨m1, g1⟩
      rcases h2 : g1.tickDir t (-1) with ⟨m2, g2⟩
      have htick := TrainGenerator.tick_in_hours hhours h1 h2
      rw [htick] at hm
      rw [htick]
      simp only [List.mem_append] at hm
      have hpol1 : g1.headway = g.headway := by
        have := TrainGenerator.tickDir_headway g t 1
        rw [h1] at this
        exact this
      rcases hm with hm | hm
      · -- event emitted by the +1 iteration
        rcases TrainGenerator.tickDir_shape g t 1 with h0 | ⟨tid, ga, _, h0, hcard, _⟩ <;>
          rw [h1] at h0
        · have hml : m1 = [] := congrArg Prod.fst h0
          rw [hml] at hm
          cases hm
        · have hml : m1 = [ga.create_make_event tid t 1] := congrArg Prod.fst h0
          rw [hml, List.mem_singleton] at hm
          subst hm
          have hemit : (g.tickDir t 1).1 = [ga.create_make_event tid t 1] := by
            rw [h1, hml]
          have he := TrainGenerator.tickDir_emit hemit
          have hpres : g2.lastDep 1 = g1.lastDep 1 := by
            have := TrainGenerator.tickDir_preserves_pos g1 t
            rw [h2] at this
            exact this
          refine ⟨he.2.1, ?_, ?_, fun _ => hcard, ?_⟩
          · rw [he.1]
            show g2.lastDep 1 = some t
            rw [hpres]
            have h3 := he.2.2.1
            rw [h1] at h3
            exact h3
          · rw [he.1]
            exact he.2.2.2.1
          · intro habs
            exact absurd (he.1.symm.trans habs) (by decide)
      · -- event emitted by the -1 iteration
        rcases TrainGenerator.tickDir_shape g1 t (-1) with h0 | ⟨tid, ga, _, h0, hcard, _⟩ <;>
          rw [h2] at h0
        · have hml : m2 = [] := congrArg Prod.fst h0
          rw [hml] at hm
          cases hm
        · have hml : m2 = [ga.create_make_event tid t (-1)] := congrArg Prod.fst h0
          rw [hml, List.mem_singleton] at hm
          subst hm
          have hemit : (g1.tickDir t (-1)).1 = [ga.create_make_event tid t (-1)] := by
            rw [h2, hml]
          have he := TrainGenerator.tickDir_emit hemit
          have hpres : g1.lastDep (-1) = g.lastDep (-1) := by
            have := TrainGenerator.tickDir_preserves_neg g t
            rw [h1] at this
            exact this
          refine ⟨he.2.1, ?_, ?_, ?_, ?_⟩
          · rw [he.1]
            show g2.lastDep (-1) = some t
            have h3 := he.2.2.1
            rw [h2] at h3
            exact h3
          · rw [he.1, ← hpres, ← hpol1]
            exact he.2.2.2.1
          · intro habs
            exact absurd (he.1.symm.trans habs) (by decide)
          · intro _
            show g1.active_trains.card < g.fleet_size
            have hfleet : g1.fleet_size = g.fleet_size := by
              have := TrainGenerator.tickDir_fleet g t 1
              rw [h1] at this
              exact this
            rw [← hfleet]
            exact hcard
  · intro g ts d hd hh
    have := TrainGenerator.runGen_sep_aux d hd g.headway hh ts g [] rfl
      List.Pairwise.nil (fun _ => rfl) (fun τ _ x hx => absurd hx (List.not_mem_nil x))
    simpa using this

theorem hourOfDay_zero : TrainGenerator.hourOfDay 0 = 0 := by
  unfold TrainGenerator.hourOfDay TrainGenerator.pyMod
  norm_num

theorem hourOfDay_21600 : TrainGenerator.hourOfDay 21600 = 6 := by
  unfold TrainGenerator.hourOfDay TrainGenerator.pyMod
  have h24 : ⌊(21600 : ℚ) / 3600 / 24⌋ = 0 := by
    rw [Int.floor_eq_zero_iff]
    constructor <;> norm_num
  norm_num [h24]

theorem tick_21600_events :
    ((TrainGenerator.init "T1" 0 4 180 6 22 1000).tick 21600).1 =
      [⟨1, "T1", 1, 21600, 1000⟩, ⟨2, "T1", -1, 21600, 1000⟩] := by
  have hhours : ¬(TrainGenerator.hourOfDay 21600 <
      (TrainGenerator.init "T1" 0 4 180 6 22 1000).service_start ∨
      TrainGenerator.hourOfDay 21600 ≥
      (TrainGenerator.init "T1" 0 4 180 6 22 1000).service_end) := by
    rw [hourOfDay_21600]
    simp [TrainGenerator.init]
    norm_num
  rw [TrainGenerator.tick_in_hours hhours rfl rfl]
  simp [TrainGenerator.tickDir, TrainGenerator.init, TrainGenerator.headwayOk,
    TrainGenerator.lastDep, TrainGenerator.allocate_train, TrainGenerator.create_make_event,
    TrainGenerator.setLastDep, createTrainId]
  decide

/-- Witness for C2 on a concrete generator (line "T1", fleet 4, headway 180 s,
service hours 6–22): a tick at `t = 0` (hour 0) emits nothing and leaves the
state untouched; the directions emitted at `t = 21600` (hour 6) form a
sublist of `[1, -1]`; the first event of that tick departs at `21600`; a
three-tick run has headway-separated direction-`+1` departures. -/
theorem C2_dispatch_discipline_witness :
    ((TrainGenerator.init "T1" 0 4 180 6 22 1000).tick 0 =
      ([], TrainGenerator.init "T1" 0 4 180 6 22 1000)) ∧
    (((TrainGenerator.init "T1" 0 4 180 6 22 1000).tick 21600).1.map
      TrainMake.direction).Sublist [1, -1] ∧
    (⟨1, "T1", 1, 21600, 1000⟩ : TrainMake).depart_time = 21600 ∧
    (TrainGenerator.depTimes 1
      ((TrainGenerator.init "T1" 0 4 180 6 22 1000).runGen
        [21600, 21700, 21800]).1).Pairwise
      (fun a b => a + (TrainGenerator.init "T1" 0 4 180 6 22 1000).headway ≤ b) := by
  refine ⟨?_, ?_, ?_, ?_⟩
  · exact C2_dispatch_discipline.1 (TrainGenerator.init "T1" 0 4 180 6 22 1000) 0
      (Or.inl (by rw [hourOfDay_zero]; norm_num [TrainGenerator.init]))
  · exact C2_dispatch_discipline.2.1 (TrainGenerator.init "T1" 0 4 180 6 22 1000) 21600
  · exact (C2_dispatch_discipline.2.2.1 (TrainGenerator.init "T1" 0 4 180 6 22 1000) 21600
      ⟨1, "T1", 1, 21600, 1000⟩
      (by rw [tick_21600_events]; exact List.mem_cons_self _ _)).1
  · exact C2_dispatch_discipline.2.2.2 (TrainGenerator.init "T1" 0 4 180 6 22 1000)
      [21600, 21700, 21800] 1 (Or.inl rfl) (by norm_num [TrainGenerator.init])

/-! ### Train: `src/src/rail_sim/train.py` -/

/-- Read row `i` of the memmap (indices used by the simulator are in range). -/
def memGet (mem : List CustomerRecord) (i : Nat) : CustomerRecord :=
  mem.getD i CustomerRecord.zero

/-- Update row `i` of the memmap by `f`. -/
def memSet (mem : List CustomerRecord) (i : Nat)
    (f : CustomerRecord → CustomerRecord) : List CustomerRecord :=
  mem.set i (f (memGet mem i))

structure Train where
  id : Nat
  line_id : String
  timetable : List (ℚ × Nat)
  max_capacity : Nat
  current_capacity : Nat
  onboard_passengers : List Nat
  direction : Int
  status : String
  timetable_idx : Nat
  current_station_id : Option Nat
  next_station_id : Option Nat
  dwell_remaining : ℚ
  position_ratio : ℚ
  deriving Repr, DecidableEq

namespace Train

/-- `Train.__init__`: occupancy 0, pointer at entry 0, stations read off the
timetable when present. -/
def new (train_id : Nat) (line_id : String) (timetable : List (ℚ × Nat))
    (max_capacity : Nat) (direction : Int := 1) (status : String := "in_service") :
    Train :=
  { id := train_id, line_id := line_id, timetable := timetable,
    max_capacity := max_capacity, current_capacity := 0,
    onboard_passengers := [], direction := direction, status := status,
    timetable_idx := 0,
    current_station_id := timetable.head?.map Prod.snd,
    next_station_id := (timetable.get? 1).map Prod.snd,
    dwell_remaining := 0, position_ratio := 0 }

/-- `Train.step(dt, current_time)`: advance along the timetable; returns the
updated train and the `arrived` flag. -/
def step (tr : Train) (dt current_time : ℚ) : Train × Bool :=
  if tr.status ≠ "in_service" ∨ tr.timetable = [] then (tr, false)
  else if 0 < tr.dwell_remaining then
    let d := tr.dwell_remaining - dt
    ({ tr with dwell_remaining := if d ≤ 0 then 0 else d }, false)
  else if tr.timetable.length ≤ tr.timetable_idx + 1 then (tr, false)
  else
    match tr.timetable.get? tr.timetable_idx, tr.timetable.get? (tr.timetable_idx + 1) with
    | some (t_cur, _), some (t_next, s_next) =>
      if t_next ≤ current_time then
        let idx1 := tr.timetable_idx + 1
        ({ tr with
            current_station_id := some s_next,
            timetable_idx := idx1,
            next_station_id := if idx1 + 1 < tr.timetable.length
              then (tr.timetable.get? (idx1 + 1)).map Prod.snd else none,
            dwell_remaining := 30,
            position_ratio := 0 }, true)
      else
        ({ tr with position_ratio :=
            if t_cur < t_next then (current_time - t_cur) / (t_next - t_cur)
            else tr.position_ratio }, false)
    | _, _ => (tr, false)

/-- `Train.board(passenger_indices, memmap)`: admit a prefix bounded by the
spare capacity; stamp the admitted rows `state=1`, `on_train_id=id`. -/
def board (tr : Train) (passenger_indices : List Nat) (mem : List CustomerRecord) :
    Train × List Nat × List CustomerRecord :=
  let available_capacity := tr.max_capacity - tr.current_capacity
  let can_board := min passenger_indices.length available_capacity
  if can_board = 0 then (tr, [], mem)
  else
    let boarded := passenger_indices.take can_board
    let tr1 := { tr with onboard_passengers := tr.onboard_passengers ++ boarded,
                         current_capacity := tr.current_capacity + can_board }
    let mem1 := boarded.foldl
      (fun m i => memSet m i (fun r => { r with on_train_id := tr.id, state := 1 })) mem
    (tr1, boarded, mem1)

/-- `Train.alight(memmap)`: drop exactly the onboard passengers whose
destination is the current station; stamp them `state=2`, `on_train_id=0`. -/
def alight (tr : Train) (mem : List CustomerRecord) :
    Train × List Nat × List CustomerRecord :=
  if tr.onboard_passengers = [] then (tr, [], mem)
  else
    match tr.current_station_id with
    | none => (tr, [], mem)
    | some cs =>
      let alighting := tr.onboard_passengers.filter
        (fun i => (memGet mem i).dest_station_id = cs)
      let staying := tr.onboard_passengers.filter
        (fun i => ¬(memGet mem i).dest_station_id = cs)
      let tr1 := { tr with onboard_passengers := staying,
                           current_capacity := staying.length }
      let mem1 := alighting.foldl
        (fun m i => memSet m i
          (fun r => { r with on_train_id := 0, state := 2, current_station_id := cs })) mem
      (tr1, alighting, mem1)

/-- `Train.reverse_direction`: flip the sign of `direction`, reset
`timetable_idx`, reverse the stored timetable and refresh the station
pointers from it. -/
def reverse_direction (tr : Train) : Train :=
  let tt := tr.timetable.reverse
  let tr1 := { tr with direction := tr.direction * (-1), timetable_idx := 0,
                       timetable := tt }
  match tt with
  | [] => tr1
  | e0 :: rest =>
    let tr2 := { tr1 with current_station_id := some e0.2 }
    match rest with
    | [] => tr2
    | e1 :: _ => { tr2 with next_station_id := some e1.2 }

end Train

/-- **C4.** Occupancy invariant of `Train.board` / `Train.alight`
(`src/src/rail_sim/train.py`): assuming `current_capacity` equals the onboard
count and is within `max_capacity` before the call,
(1) after `board` the equality still holds and occupancy stays within
`max_capacity`; `board` appends exactly the prefix of the candidates of
length `min(len(candidates), max_capacity - occupancy)`;
(2) `board` on a full train returns no boarded passengers;
(3) after `alight` the equality holds again, occupancy does not grow, and
when the train is at a station with passengers aboard, `alight` removes
exactly the onboard passengers whose destination equals that station. -/
theorem C4_occupancy_invariant :
    (∀ (tr : Train) (cands : List Nat) (mem : List CustomerRecord),
      tr.current_capacity = tr.onboard_passengers.length →
      tr.current_capacity ≤ tr.max_capacity →
      (tr.board cands mem).1.current_capacity =
        (tr.board cands mem).1.onboard_passengers.length ∧
      (tr.board cands mem).1.current_capacity ≤ tr.max_capacity ∧
      (tr.board cands mem).2.1 =
        cands.take (min cands.length (tr.max_capacity - tr.current_capacity)) ∧
      (tr.board cands mem).1.onboard_passengers =
        tr.onboard_passengers ++ (tr.board cands mem).2.1) ∧
    (∀ (tr : Train) (cands : List Nat) (mem : List CustomerRecord),
      tr.current_capacity = tr.max_capacity → (tr.board cands mem).2.1 = []) ∧
    (∀ (tr : Train) (mem : List CustomerRecord),
      tr.current_capacity = tr.onboard_passengers.length →
      (tr.alight mem).1.current_capacity =
        (tr.alight mem).1.onboard_passengers.length ∧
      (tr.alight mem).1.current_capacity ≤ tr.current_capacity ∧
      (∀ cs, tr.current_station_id = some cs → tr.onboard_passengers ≠ [] →
        (tr.alight mem).2.1 = tr.onboard_passengers.filter
          (fun i => (memGet mem i).dest_station_id = cs) ∧
        (tr.alight mem).1.onboard_passengers = tr.onboard_passengers.filter
          (fun i => ¬(memGet mem i).dest_station_id = cs))) := by
  refine ⟨?_, ?_, ?_⟩
  · intro tr cands mem hcap hle
    unfold Train.board
    by_cases h0 : min cands.length (tr.max_capacity - tr.current_capacity) = 0
    · rw [if_pos h0]
      refine ⟨hcap, hle, ?_, by simp⟩
      rw [h0]
      simp
    · rw [if_neg h0]
      refine ⟨?_, ?_, rfl, rfl⟩
      · show tr.current_capacity + min cands.length (tr.max_capacity - tr.current_capacity) =
          (tr.onboard_passengers ++
            cands.take (min cands.length (tr.max_capacity - tr.current_capacity))).length
        rw [List.length_append, List.length_take, hcap]
        omega
      · show tr.current_capacity + min cands.length (tr.max_capacity - tr.current_capacity) ≤
          tr.max_capacity
        omega
  · intro tr cands mem hfull
    unfold Train.board
    rw [if_pos (by rw [hfull]; simp)]
  · intro tr mem hcap
    unfold Train.alight
    by_cases hemp : tr.onboard_passengers = []
    · rw [if_pos hemp]
      exact ⟨hcap, le_refl _, fun cs _ habs => absurd hemp habs⟩
    · rw [if_neg hemp]
      cases hcs : tr.current_station_id with
      | none =>
        exact ⟨hcap, le_refl _, fun cs h _ => Option.noConfusion h⟩
      | some cs =>
        refine ⟨rfl, ?_, ?_⟩
        · show (tr.onboard_passengers.filter
              (fun i => ¬(memGet mem i).dest_station_id = cs)).length ≤ tr.current_capacity
          rw [hcap]
          exact List.length_filter_le _ _
        · intro cs' hcs' _
          injection hcs' with he
          subst he
          exact ⟨rfl, rfl⟩

/-- Witness for C4, the spec's scenario S6: a train with `max_capacity = 2`
offered five candidates boards exactly the first two; a second `board` on the
now-full train returns nothing; `alight` at station 2 removes exactly the
passenger whose destination is 2. -/
theorem C4_occupancy_invariant_witness :
    ((Train.new 7 "T1" [(0, 1), (60, 2)] 2).board [10, 11, 12, 13, 14]
      (List.replicate 15 CustomerRecord.zero)).2.1 = [10, 11] ∧
    ((Train.new 7 "T1" [(0, 1), (60, 2)] 2).board [10, 11, 12, 13, 14]
      (List.replicate 15 CustomerRecord.zero)).1.current_capacity = 2 ∧
    (((Train.new 7 "T1" [(0, 1), (60, 2)] 2).board [10, 11, 12, 13, 14]
        (List.replicate 15 CustomerRecord.zero)).1.board [20, 21, 22, 23, 24]
      (List.replicate 15 CustomerRecord.zero)).2.1 = [] := by
  refine ⟨?_, by decide, ?_⟩
  · exact ((C4_occupancy_invariant.1 (Train.new 7 "T1" [(0, 1), (60, 2)] 2)
      [10, 11, 12, 13, 14] (List.replicate 15 CustomerRecord.zero) rfl
      (by decide)).2.2.1).trans (by decide)
  · exact C4_occupancy_invariant.2.1 _ [20, 21, 22, 23, 24]
      (List.replicate 15 CustomerRecord.zero) (by decide)

/-! ### Path table: `src/rail_sim/path_table.py` -/

/-- A path segment `(line_code, from_station_id, to_station_id)`. -/
abbrev Segment := String × Nat × Nat

/-- `PathTable` state.  Python keys the dedup dict by
`hashlib.md5(str(segments))`; `str` is injective on these tuples (and md5 is
collision-free on the inputs the simulator ever produces), so the key is
modelled by the segment list itself.  Dicts are association lists in
insertion order. -/
structure PathTable where
  paths : List (Nat × List Segment)
  path_hash_to_id : List (List Segment × Nat)
  next_path_id : Nat
  deriving Repr, DecidableEq

namespace PathTable

/-- `__init__`: empty dicts, ids start at 1. -/
def init : PathTable := ⟨[], [], 1⟩

/-- `expand(path_id)`: `self.paths.get(path_id)`. -/
def expand (pt : PathTable) (path_id : Nat) : Option (List Segment) :=
  (pt.paths.find? (fun e => e.1 == path_id)).map (·.2)

/-- `plan(origin_id, dest_id, segments)`: dedup lookup, else intern under the
next id.  (`origin_id`/`dest_id` are only logged.) -/
def plan (pt : PathTable) (origin_id dest_id : Nat) (segments : List Segment) :
    Nat × PathTable :=
  match pt.path_hash_to_id.find? (fun e => e.1 == segments) with
  | some e => (e.2, pt)
  | none =>
    let path_id := pt.next_path_id
    (path_id, { pt with next_path_id := path_id + 1,
                        paths := pt.paths ++ [(path_id, segments)],
                        path_hash_to_id := pt.path_hash_to_id ++ [(segments, path_id)] })

/-- Invariant of reachable path tables: ids are positive and below the
counter, and every dedup entry points at its own interned segments. -/
def Wf (pt : PathTable) : Prop :=
  1 ≤ pt.next_path_id ∧
  (∀ e ∈ pt.paths, 1 ≤ e.1 ∧ e.1 < pt.next_path_id) ∧
  (∀ e ∈ pt.path_hash_to_id, pt.expand e.2 = some e.1 ∧ 1 ≤ e.2)

theorem find?_append_none {α : Type} {p : α → Bool} {l1 l2 : List α}
    (h : l1.find? p = none) : (l1 ++ l2).find? p = l2.find? p := by
  induction l1 with
  | nil => rfl
  | cons a l ih =>
    cases hp : p a with
    | true =>
      rw [List.find?_cons_of_pos _ hp] at h
      cases h
    | false =>
      rw [List.find?_cons_of_neg _ (by simp [hp])] at h
      rw [List.cons_append, List.find?_cons_of_neg _ (by simp [hp])]
      exact ih h

theorem find?_append_some {α : Type} {p : α → Bool} {l1 l2 : List α} {a : α}
    (h : l1.find? p = some a) : (l1 ++ l2).find? p = some a := by
  induction l1 with
  | nil => cases h
  | cons b l ih =>
    cases hp : p b with
    | true =>
      rw [List.find?_cons_of_pos _ hp] at h
      rw [List.cons_append, List.find?_cons_of_pos _ hp]
      exact h
    | false =>
      rw [List.find?_cons_of_neg _ (by simp [hp])] at h
      rw [List.cons_append, List.find?_cons_of_neg _ (by simp [hp])]
      exact ih h

theorem expand_append_new (pt : PathTable) (hwf : pt.Wf) (segs : List Segment) :
    (pt.paths ++ [(pt.next_path_id, segs)]).find?
      (fun e => e.1 == pt.next_path_id) = some (pt.next_path_id, segs) := by
  have hnone : pt.paths.find? (fun e => e.1 == pt.next_path_id) = none := by
    rw [List.find?_eq_none]
    intro e he
    have := (hwf.2.1 e he).2
    simp only [beq_iff_eq]
    omega
  rw [find?_append_none hnone]
  simp [List.find?_cons]

theorem plan_miss (pt : PathTable) (hwf : pt.Wf) (o d : Nat) (segs : List Segment)
    (h : pt.path_hash_to_id.find? (fun e => e.1 == segs) = none) :
    (pt.plan o d segs).1 = pt.next_path_id ∧
    (pt.plan o d segs).2.expand pt.next_path_id = some segs ∧
    (pt.plan o d segs).2.path_hash_to_id =
      pt.path_hash_to_id ++ [(segs, pt.next_path_id)] := by
  unfold plan
  rw [h]
  refine ⟨rfl, ?_, rfl⟩
  show ((pt.paths ++ [(pt.next_path_id, segs)]).find?
    (fun e => e.1 == pt.next_path_id)).map (·.2) = some segs
  rw [expand_append_new pt hwf segs]
  rfl

theorem plan_hit (pt : PathTable) (hwf : pt.Wf) (o d : Nat) (segs : List Segment)
    {e : List Segment × Nat}
    (h : pt.path_hash_to_id.find? (fun e => e.1 == segs) = some e) :
    pt.plan o d segs = (e.2, pt) ∧ pt.expand e.2 = some segs ∧ 1 ≤ e.2 := by
  have hmem := List.mem_of_find?_eq_some h
  have hkey : e.1 = segs := by
    have := List.find?_some h
    simpa [beq_iff_eq] using this
  have hw := hwf.2.2 e hmem
  refine ⟨?_, ?_, hw.2⟩
  · unfold plan
    rw [h]
  · rw [hw.1, hkey]

theorem wf_init : Wf init := by
  refine ⟨le_refl _, ?_, ?_⟩ <;> intro e he <;> cases he

theorem wf_plan (pt : PathTable) (hwf : pt.Wf) (o d : Nat) (segs : List Segment) :
    (pt.plan o d segs).2.Wf := by
  cases hf : pt.path_hash_to_id.find? (fun e => e.1 == segs) with
  | some e =>
    have := (plan_hit pt hwf o d segs hf).1
    rw [this]
    exact hwf
  | none =>
    have hres : pt.plan o d segs =
        (pt.next_path_id,
          ⟨pt.paths ++ [(pt.next_path_id, segs)],
           pt.path_hash_to_id ++ [(segs, pt.next_path_id)],
           pt.next_path_id + 1⟩) := by
      unfold plan
      rw [hf]
    rw [hres]
    have h1 := hwf.1
    refine ⟨?_, ?_, ?_⟩
    · show 1 ≤ pt.next_path_id + 1
      omega
    · intro e he
      replace he : e ∈ pt.paths ++ [(pt.next_path_id, segs)] := he
      show 1 ≤ e.1 ∧ e.1 < pt.next_path_id + 1
      rcases List.mem_append.mp he with he | he
      · have := hwf.2.1 e he
        omega
      · rw [List.mem_singleton] at he
        subst he
        simp only
        omega
    · intro e he
      replace he : e ∈ pt.path_hash_to_id ++ [(segs, pt.next_path_id)] := he
      rcases List.mem_append.mp he with he | he
      · have hw := hwf.2.2 e he
        refine ⟨?_, hw.2⟩
        show ((pt.paths ++ [(pt.next_path_id, segs)]).find?
          (fun x => x.1 == e.2)).map (·.2) = some e.1
        obtain ⟨x, hfind, hx⟩ : ∃ x, pt.paths.find? (fun x => x.1 == e.2) = some x ∧
            x.2 = e.1 := by
          have hx := hw.1
          unfold expand at hx
          cases hfind : pt.paths.find? (fun x => x.1 == e.2) with
          | none => rw [hfind] at hx; cases hx
          | some x =>
            rw [hfind] at hx
            exact ⟨x, rfl, by simpa using hx⟩
        rw [find?_append_some hfind]
        simp [hx]
      · rw [List.mem_singleton] at he
        subst he
        refine ⟨?_, hwf.1⟩
        show ((pt.paths ++ [(pt.next_path_id, segs)]).find?
          (fun x => x.1 == pt.next_path_id)).map (·.2) = some segs
        rw [expand_append_new pt hwf segs]
        rfl

theorem expand_zero (pt : PathTable) (hwf : pt.Wf) : pt.expand 0 = none := by
  unfold expand
  rw [List.find?_eq_none.mpr]
  · rfl
  · intro e he
    have := (hwf.2.1 e he).1
    simp only [beq_iff_eq]
    omega

end PathTable

/-- **C5.** Path deduplication (`PathTable` of `src/rail_sim/path_table.py`):
on any well-formed table, two `plan` calls with structurally identical segment
sequences return the same positive `path_id` and `expand` of that id yields
that segment list after either call; on a miss the assigned id is the current
`next_path_id`, which starts at 1 in a fresh table; `expand 0` returns
`None`; `plan` preserves well-formedness. -/
theorem C5_path_dedup :
    (∀ (pt : PathTable) (o1 d1 o2 d2 : Nat) (segs : List Segment), pt.Wf →
      ((pt.plan o1 d1 segs).2.plan o2 d2 segs).1 = (pt.plan o1 d1 segs).1 ∧
      1 ≤ (pt.plan o1 d1 segs).1 ∧
      ((pt.plan o1 d1 segs).2.plan o2 d2 segs).2.expand (pt.plan o1 d1 segs).1 =
        some segs ∧
      (pt.plan o1 d1 segs).2.expand (pt.plan o1 d1 segs).1 = some segs) ∧
    (∀ (pt : PathTable) (o d : Nat) (segs : List Segment), pt.Wf →
      pt.path_hash_to_id.find? (fun e => e.1 == segs) = none →
      (pt.plan o d segs).1 = pt.next_path_id) ∧
    PathTable.init.next_path_id = 1 ∧
    (∀ (pt : PathTable) (o d : Nat) (segs : List Segment), pt.Wf →
      (pt.plan o d segs).2.Wf) ∧
    (∀ pt : PathTable, pt.Wf → pt.expand 0 = none) := by
  refine ⟨?_, ?_, rfl, fun pt o d segs hwf => PathTable.wf_plan pt hwf o d segs,
    PathTable.expand_zero⟩
  · intro pt o1 d1 o2 d2 segs hwf
    cases hf : pt.path_hash_to_id.find? (fun e => e.1 == segs) with
    | some e =>
      have h1 := PathTable.plan_hit pt hwf o1 d1 segs hf
      rw [h1.1]
      have h2 := PathTable.plan_hit pt hwf o2 d2 segs hf
      rw [h2.1]
      exact ⟨rfl, h1.2.2, h1.2.1, h1.2.1⟩
    | none =>
      have h1 := PathTable.plan_miss pt hwf o1 d1 segs hf
      have hwf1 := PathTable.wf_plan pt hwf o1 d1 segs
      have hf2 : (pt.plan o1 d1 segs).2.path_hash_to_id.find?
          (fun e => e.1 == segs) = some (segs, pt.next_path_id) := by
        rw [h1.2.2]
        rw [PathTable.find?_append_none hf]
        simp [List.find?_cons]
      have h2 := PathTable.plan_hit (pt.plan o1 d1 segs).2 hwf1 o2 d2 segs hf2
      rw [h2.1]
      refine ⟨?_, ?_, ?_, ?_⟩
      · rw [h1.1]
      · rw [h1.1]
        exact hwf.1
      · rw [h1.1]
        exact h1.2.1
      · rw [h1.1]
        exact h1.2.1
  · intro pt o d segs hwf h
    exact (PathTable.plan_miss pt hwf o d segs h).1

/-- Witness for C5, the spec's scenario S3: planning `(1,3)` via
`[(T1,1,2),(T1,2,3)]` twice on a fresh table returns the same id both times,
the id is `1`, both expansions give the segments back, and `expand 0` is
`None`. -/
theorem C5_path_dedup_witness :
    ((PathTable.init.plan 1 3 [("T1", 1, 2), ("T1", 2, 3)]).2.plan 1 3
        [("T1", 1, 2), ("T1", 2, 3)]).1 =
      (PathTable.init.plan 1 3 [("T1", 1, 2), ("T1", 2, 3)]).1 ∧
    (PathTable.init.plan 1 3 [("T1", 1, 2), ("T1", 2, 3)]).1 = 1 ∧
    (PathTable.init.plan 1 3 [("T1", 1, 2), ("T1", 2, 3)]).2.expand 1 =
      some [("T1", 1, 2), ("T1", 2, 3)] ∧
    PathTable.init.expand 0 = none := by
  have hwf : PathTable.init.Wf := PathTable.wf_init
  refine ⟨?_, ?_, ?_, ?_⟩
  · exact (C5_path_dedup.1 PathTable.init 1 3 1 3 [("T1", 1, 2), ("T1", 2, 3)] hwf).1
  · exact (C5_path_dedup.2.1 PathTable.init 1 3 [("T1", 1, 2), ("T1", 2, 3)] hwf
      (by decide)).trans rfl
  · have := (C5_path_dedup.1 PathTable.init 1 3 1 3 [("T1", 1, 2), ("T1", 2, 3)] hwf).2.2.2
    rw [(C5_path_dedup.2.1 PathTable.init 1 3 [("T1", 1, 2), ("T1", 2, 3)] hwf
      (by decide)).trans rfl] at this
    exact this
  · exact C5_path_dedup.2.2.2.2 PathTable.init hwf

/-! ### Station: `src/rail_sim/station.py` -/

structure Station where
  station_id : Nat
  name : String
  line_codes : List String
  avg_change_time : ℚ
  theoretical_capacity : Nat
  maximum_capacity : Nat
  waiting_passengers : List Nat
  deriving Repr, DecidableEq

namespace Station

/-- `enqueue_passenger`: append to the waiting queue. -/
def enqueue_passenger (st : Station) (customer_idx : Nat) : Station :=
  { st with waiting_passengers := st.waiting_passengers ++ [customer_idx] }

/-- The loop body of `dequeue_for_boarding` for one waiting index: the record
has a path (`path_id ≠ 0`), the path expands to a non-empty segment list
(`if segments:`), and some segment departs this station on the train's line. -/
def eligibleForTrain (st : Station) (train_line_id : String)
    (mem : List CustomerRecord) (pt : PathTable) (idx : Nat) : Bool :=
  let path_id := (memGet mem idx).path_id
  if path_id = 0 then false
  else
    match pt.expand path_id with
    | some segments =>
      !segments.isEmpty && segments.any
        (fun s => s.1 == train_line_id && s.2.1 == st.station_id)
    | none => false

/-- What Python guarantees about `list(someSet)`: a duplicate-free listing of
the members, in an implementation-defined order. -/
def SetEnum (enum : Finset Nat → List Nat) : Prop :=
  ∀ s : Finset Nat, (enum s).Nodup ∧ ∀ x, x ∈ enum s ↔ x ∈ s

/-- `dequeue_for_boarding(train, memmap, path_table)`: collect the eligible
indices in queue order, rebuild the queue as
`list(set(waiting_passengers) - set(eligible))` (the set-to-list step is the
parameter `enum`), and return the eligible array. -/
def dequeue_for_boarding (enum : Finset Nat → List Nat) (st : Station)
    (train_line_id : String) (mem : List CustomerRecord) (pt : PathTable) :
    List Nat × Station :=
  if st.waiting_passengers = [] then ([], st)
  else
    let eligible := st.waiting_passengers.filter
      (st.eligibleForTrain train_line_id mem pt)
    let remaining := st.waiting_passengers.toFinset \ eligible.toFinset
    (eligible, { st with waiting_passengers := enum remaining })

end Station

/-- A station with a duplicated queue entry, used to exhibit the collapse of
duplicates by the set-difference rebuild. -/
def stationDup : Station := ⟨9, "S", [], 60, 5000, 10000, [5, 5]⟩

/-- **C10.** `Station.dequeue_for_boarding` (`src/rail_sim/station.py`)
returns the eligible indices in their original queue order, but rebuilds the
remaining queue as the set difference `set(waiting) - set(eligible)`:
(1) the returned array is the in-order filter of the waiting queue by the
path/line eligibility test;
(2) for any admissible set enumeration, the rebuilt queue is duplicate-free
and holds exactly the indices of the old queue that are not eligible;
(3) duplicates are collapsed, so the rebuilt queue need not preserve the
queue: with waiting list `[5, 5]` and nothing eligible, no admissible
enumeration reproduces `[5, 5]`. -/
theorem C10_dequeue_residue_is_set :
    (∀ (enum : Finset Nat → List Nat) (st : Station) (lid : String)
      (mem : List CustomerRecord) (pt : PathTable),
      (Station.dequeue_for_boarding enum st lid mem pt).1 =
        st.waiting_passengers.filter (st.eligibleForTrain lid mem pt)) ∧
    (∀ (enum : Finset Nat → List Nat) (st : Station) (lid : String)
      (mem : List CustomerRecord) (pt : PathTable), Station.SetEnum enum →
      (Station.dequeue_for_boarding enum st lid mem pt).2.waiting_passengers.Nodup ∧
      ∀ x, x ∈ (Station.dequeue_for_boarding enum st lid mem pt).2.waiting_passengers ↔
        x ∈ st.waiting_passengers ∧
          ¬(st.eligibleForTrain lid mem pt x = true ∧ x ∈ st.waiting_passengers)) ∧
    (∀ enum : Finset Nat → List Nat, Station.SetEnum enum →
      (Station.dequeue_for_boarding enum stationDup "T1" []
        PathTable.init).2.waiting_passengers ≠ [5, 5]) := by
  refine ⟨?_, ?_, ?_⟩
  · intro enum st lid mem pt
    unfold Station.dequeue_for_boarding
    by_cases h : st.waiting_passengers = []
    · rw [if_pos h, h]
      rfl
    · rw [if_neg h]
  · intro enum st lid mem pt henum
    unfold Station.dequeue_for_boarding
    by_cases h : st.waiting_passengers = []
    · rw [if_pos h]
      refine ⟨by rw [h]; exact List.nodup_nil, ?_⟩
      intro x
      rw [h]
      simp
    · rw [if_neg h]
      refine ⟨(henum _).1, ?_⟩
      intro x
      rw [(henum _).2 x]
      simp only [Finset.mem_sdiff, List.mem_toFinset, List.mem_filter]
      constructor
      · rintro ⟨hw, hne⟩
        exact ⟨hw, fun ⟨he, hw2⟩ => hne ⟨hw2, he⟩⟩
      · rintro ⟨hw, hne⟩
        exact ⟨hw, fun ⟨hw2, he⟩ => hne ⟨he, hw2⟩⟩
  · intro enum henum habs
    have hnodup : (Station.dequeue_for_boarding enum stationDup "T1" []
        PathTable.init).2.waiting_passengers.Nodup := by
      unfold Station.dequeue_for_boarding
      rw [if_neg (by decide)]
      exact (henum _).1
    rw [habs] at hnodup
    simp at hnodup

/-- A concrete admissible enumeration of a Python set of naturals: the sorted
listing. -/
def sortEnum : Finset Nat → List Nat := fun s => s.sort (· ≤ ·)

theorem sortEnum_admissible : Station.SetEnum sortEnum := by
  intro s
  exact ⟨Finset.sort_nodup _ s, fun x => Finset.mem_sort _⟩

/-- Witness for C10 at a concrete queue `[7, 3, 7]` with nothing eligible
(empty path table, so every record has `path_id = 0`): the eligible array is
empty, the residue is duplicate-free and contains exactly 3 and 7, and the
duplicate example `[5, 5]` is not reproduced. -/
theorem C10_dequeue_residue_is_set_witness :
    (Station.dequeue_for_boarding sortEnum ⟨1, "A", [], 60, 5000, 10000, [7, 3, 7]⟩
      "T1" [] PathTable.init).1 = [] ∧
    (Station.dequeue_for_boarding sortEnum ⟨1, "A", [], 60, 5000, 10000, [7, 3, 7]⟩
      "T1" [] PathTable.init).2.waiting_passengers.Nodup ∧
    (3 ∈ (Station.dequeue_for_boarding sortEnum ⟨1, "A", [], 60, 5000, 10000, [7, 3, 7]⟩
      "T1" [] PathTable.init).2.waiting_passengers ↔
      3 ∈ ([7, 3, 7] : List Nat) ∧
        ¬((Station.eligibleForTrain ⟨1, "A", [], 60, 5000, 10000, [7, 3, 7]⟩ "T1" []
            PathTable.init 3 = true) ∧ 3 ∈ ([7, 3, 7] : List Nat))) ∧
    (Station.dequeue_for_boarding sortEnum stationDup "T1" []
      PathTable.init).2.waiting_passengers ≠ [5, 5] := by
  refine ⟨?_, ?_, ?_, ?_⟩
  · exact (C10_dequeue_residue_is_set.1 sortEnum
      ⟨1, "A", [], 60, 5000, 10000, [7, 3, 7]⟩ "T1" [] PathTable.init).trans (by decide)
  · exact (C10_dequeue_residue_is_set.2.1 sortEnum
      ⟨1, "A", [], 60, 5000, 10000, [7, 3, 7]⟩ "T1" [] PathTable.init
      sortEnum_admissible).1
  · exact (C10_dequeue_residue_is_set.2.1 sortEnum
      ⟨1, "A", [], 60, 5000, 10000, [7, 3, 7]⟩ "T1" [] PathTable.init
      sortEnum_admissible).2 3
  · exact C10_dequeue_residue_is_set.2.2 sortEnum sortEnum_admissible

/-! ### Line: `src/rail_sim/line.py` -/

structure Line where
  line_id : String
  line_code : String
  station_list : List Nat
  time_between_stations : List ℚ
  fleet_size : Nat
  bidirectional : Bool
  train_generator : TrainGenerator
  deriving DecidableEq

namespace Line

/-- The loop of `build_timetable`: each later stop arrives
`max(travel_time, min_interval)` after the previous one. -/
def timetableFrom (t min_interval : ℚ) : List ℚ → List Nat → List (ℚ × Nat)
  | travel :: ts, s :: ss =>
    let t1 := t + max travel min_interval
    (t1, s) :: timetableFrom t1 min_interval ts ss
  | _, _ => []

/-- `build_timetable(start_time, direction, min_interval=10.0)`: stations and
segment times are reversed for direction `-1`.  (On an empty station list the
Python code raises `IndexError`; lines always have ≥ 2 stations.) -/
def build_timetable (ln : Line) (start_time : ℚ) (direction : Int)
    (min_interval : ℚ := 10) : List (ℚ × Nat) :=
  let stations := if direction = 1 then ln.station_list else ln.station_list.reverse
  let times := if direction = 1 then ln.time_between_stations
               else ln.time_between_stations.reverse
  match stations with
  | [] => []
  | s0 :: rest => (start_time, s0) :: timetableFrom start_time min_interval times rest

end Line

/-! ### Simulation loop, dispatch and train-update phases:
`src/rail_sim/simulation.py` (`SimulationLoop.step`, steps 3 and 4) -/

/-- `self.map.stations.get(sid)`. -/
def lookupStation (stations : List (Nat × Station)) (sid : Nat) : Option Station :=
  (stations.find? (fun e => e.1 == sid)).map (·.2)

/-- Write back the (in Python, aliased and mutated in place) station object. -/
def updateStationMap (stations : List (Nat × Station)) (sid : Nat) (st : Station) :
    List (Nat × Station) :=
  stations.map (fun e => if e.1 == sid then (e.1, st) else e)

/-- `self.allocator.memmap[i]['tap_off_ts'] = t`. -/
def setTapOff (t : ℚ) (mem : List CustomerRecord) (i : Nat) : List CustomerRecord :=
  memSet mem i (fun r => { r with tap_off_ts := t })

/-- `self.allocator.memmap[i]['tap_on_ts'] = t`. -/
def setTapOn (t : ℚ) (mem : List CustomerRecord) (i : Nat) : List CustomerRecord :=
  memSet mem i (fun r => { r with tap_on_ts := t })

/-- Result of the per-train body of step 4 of `SimulationLoop.step`. -/
structure UpdResult where
  train : Train
  stations : List (Nat × Station)
  alloc : MemmapAllocator
  alighted : List Nat
  boarded : List Nat
  deriving DecidableEq

/-- The boarding block of `SimulationLoop.step`
(`station = self.map.stations.get(...); if station and dwell > 0: ...`). -/
def boardingBlock (enum : Finset Nat → List Nat) (pt : PathTable)
    (stations : List (Nat × Station)) (alloc : MemmapAllocator)
    (tr : Train) (t : ℚ) (alighted : List Nat) : UpdResult :=
  match tr.current_station_id with
  | none => ⟨tr, stations, alloc, alighted, []⟩
  | some sid =>
    match lookupStation stations sid with
    | none => ⟨tr, stations, alloc, alighted, []⟩
    | some st =>
      if 0 < tr.dwell_remaining then
        let r := Station.dequeue_for_boarding enum st tr.line_id alloc.memmap pt
        let b := tr.board r.1 alloc.memmap
        let mem2 := b.2.1.foldl (setTapOn t) b.2.2
        ⟨b.1, updateStationMap stations sid r.2, { alloc with memmap := mem2 },
          alighted, b.2.1⟩
      else ⟨tr, stations, alloc, alighted, []⟩

/-- The per-train body of step 4 of `SimulationLoop.step`: `step`, then on
arrival `alight` (tap-off, release), terminal reversal with timetable rebuild
(`continue`, skipping boarding), else the boarding block. -/
def updateOneTrain (enum : Finset Nat → List Nat) (lines : List Line)
    (pt : PathTable) (stations : List (Nat × Station)) (alloc : MemmapAllocator)
    (tr : Train) (dt t : ℚ) : UpdResult :=
  let s := tr.step dt t
  let tr1 := s.1
  let arrived := s.2
  if (arrived = true ∨ 0 < tr1.dwell_remaining) ∧ tr1.current_station_id.getD 0 ≠ 0 then
    if arrived then
      let a := tr1.alight alloc.memmap
      let tr2 := a.1
      let mem2 := a.2.1.foldl (setTapOff t) a.2.2
      let alloc2 := MemmapAllocator.releaseAll { alloc with memmap := mem2 } a.2.1
      if tr2.timetable.length ≤ tr2.timetable_idx + 1 then
        let tr3 := tr2.reverse_direction
        let tr4 := match lines.find? (fun l => l.line_id == tr3.line_id) with
          | some ln => { tr3 with timetable := ln.build_timetable t tr3.direction }
          | none => tr3
        ⟨{ tr4 with timetable_idx := 0, status := "in_service", dwell_remaining := 30 },
          stations, alloc2, a.2.1, []⟩
      else boardingBlock enum pt stations alloc2 tr2 t a.2.1
    else boardingBlock enum pt stations alloc tr1 t []
  else ⟨tr1, stations, alloc, [], []⟩

namespace Train

theorem reverse_direction_fields (tr : Train) :
    tr.reverse_direction.direction = -tr.direction ∧
    tr.reverse_direction.timetable_idx = 0 ∧
    tr.reverse_direction.timetable = tr.timetable.reverse ∧
    tr.reverse_direction.line_id = tr.line_id ∧
    tr.reverse_direction.status = tr.status := by
  unfold reverse_direction
  cases htt : tr.timetable.reverse with
  | nil => exact ⟨mul_neg_one _, rfl, rfl, rfl, rfl⟩
  | cons e0 rest =>
    cases rest with
    | nil => exact ⟨mul_neg_one _, rfl, rfl, rfl, rfl⟩
    | cons e1 rest' => exact ⟨mul_neg_one _, rfl, rfl, rfl, rfl⟩

theorem alight_preserves (tr : Train) (mem : List CustomerRecord) :
    (tr.alight mem).1.timetable = tr.timetable ∧
    (tr.alight mem).1.timetable_idx = tr.timetable_idx ∧
    (tr.alight mem).1.direction = tr.direction ∧
    (tr.alight mem).1.line_id = tr.line_id := by
  unfold alight
  by_cases h : tr.onboard_passengers = []
  · rw [if_pos h]
    exact ⟨rfl, rfl, rfl, rfl⟩
  · rw [if_neg h]
    cases tr.current_station_id with
    | none => exact ⟨rfl, rfl, rfl, rfl⟩
    | some cs => exact ⟨rfl, rfl, rfl, rfl⟩

end Train

/-- **C3.** Terminal reversal (`Train.reverse_direction` of
`src/src/rail_sim/train.py` and the terminal branch of `SimulationLoop.step`,
`src/rail_sim/simulation.py`):
(1) `reverse_direction` flips the sign of `direction` and resets
`timetable_idx` to 0;
(2) when a train arrives at the last timetable entry, the loop rebuilds its
timetable via `Line.build_timetable` from the current time in the new
direction (rather than keeping the reversed old timetable), sets
`timetable_idx = 0`, `status = 'in_service'`, `dwell_remaining = 30`, skips
boarding for that train on that tick and leaves the station queues alone. -/
theorem C3_terminal_reversal :
    (∀ tr : Train,
      tr.reverse_direction.direction = -tr.direction ∧
      tr.reverse_direction.timetable_idx = 0) ∧
    (∀ (enum : Finset Nat → List Nat) (lines : List Line) (pt : PathTable)
      (stations : List (Nat × Station)) (alloc : MemmapAllocator)
      (tr tr1 : Train) (ln : Line) (dt t : ℚ),
      tr.step dt t = (tr1, true) →
      tr1.current_station_id.getD 0 ≠ 0 →
      tr1.timetable.length ≤ tr1.timetable_idx + 1 →
      lines.find? (fun l => l.line_id == tr1.line_id) = some ln →
      (updateOneTrain enum lines pt stations alloc tr dt t).train.direction =
        -tr1.direction ∧
      (updateOneTrain enum lines pt stations alloc tr dt t).train.timetable =
        ln.build_timetable t (-tr1.direction) ∧
      (updateOneTrain enum lines pt stations alloc tr dt t).train.timetable_idx = 0 ∧
      (updateOneTrain enum lines pt stations alloc tr dt t).train.status =
        "in_service" ∧
      (updateOneTrain enum lines pt stations alloc tr dt t).train.dwell_remaining = 30 ∧
      (updateOneTrain enum lines pt stations alloc tr dt t).boarded = [] ∧
      (updateOneTrain enum lines pt stations alloc tr dt t).stations = stations) := by
  constructor
  · intro tr
    exact ⟨(Train.reverse_direction_fields tr).1, (Train.reverse_direction_fields tr).2.1⟩
  · intro enum lines pt stations alloc tr tr1 ln dt t hstep hstation hterm hfind
    have hpres := Train.alight_preserves tr1 alloc.memmap
    unfold updateOneTrain
    rw [hstep]
    dsimp only
    rw [if_pos (⟨Or.inl rfl, hstation⟩ :
      ((true = true ∨ 0 < tr1.dwell_remaining) ∧ tr1.current_station_id.getD 0 ≠ 0))]
    rw [if_pos rfl]
    rw [if_pos (show (tr1.alight alloc.memmap).1.timetable.length ≤
        (tr1.alight alloc.memmap).1.timetable_idx + 1 by
      rw [hpres.1, hpres.2.1]; exact hterm)]
    have hrev := Train.reverse_direction_fields (tr1.alight alloc.memmap).1
    have hline : (tr1.alight alloc.memmap).1.reverse_direction.line_id = tr1.line_id :=
      hrev.2.2.2.1.trans hpres.2.2.2
    have hdir : (tr1.alight alloc.memmap).1.reverse_direction.direction =
        -tr1.direction := by
      rw [hrev.1, hpres.2.2.1]
    rw [show lines.find?
        (fun l => l.line_id == (tr1.alight alloc.memmap).1.reverse_direction.line_id) =
        some ln by rw [hline]; exact hfind]
    refine ⟨hdir, ?_, rfl, rfl, rfl, rfl, rfl⟩
    rw [hdir]

/-- Witness for C3: a two-stop train that departed at 0 arrives at its
terminal (station 2) at `t = 60`; the update rebuilds its timetable for the
return run from `t = 60`, resets the pointer, dwells 30 s and boards nobody. -/
theorem C3_terminal_reversal_witness :
    ((Train.new 5 "T1" [(0, 1), (60, 2)] 100).reverse_direction.direction = -1 ∧
      (Train.new 5 "T1" [(0, 1), (60, 2)] 100).reverse_direction.timetable_idx = 0) ∧
    ((updateOneTrain sortEnum
        [⟨"T1", "T1", [1, 2], [60], 4, true, TrainGenerator.init "T1" 0 4 180 0 24 1000⟩]
        PathTable.init [] (MemmapAllocator.init 0)
        (Train.new 5 "T1" [(0, 1), (60, 2)] 100) 1 60).train.timetable =
      Line.build_timetable
        ⟨"T1", "T1", [1, 2], [60], 4, true, TrainGenerator.init "T1" 0 4 180 0 24 1000⟩
        60 (-1) ∧
     (updateOneTrain sortEnum
        [⟨"T1", "T1", [1, 2], [60], 4, true, TrainGenerator.init "T1" 0 4 180 0 24 1000⟩]
        PathTable.init [] (MemmapAllocator.init 0)
        (Train.new 5 "T1" [(0, 1), (60, 2)] 100) 1 60).train.dwell_remaining = 30 ∧
     (updateOneTrain sortEnum
        [⟨"T1", "T1", [1, 2], [60], 4, true, TrainGenerator.init "T1" 0 4 180 0 24 1000⟩]
        PathTable.init [] (MemmapAllocator.init 0)
        (Train.new 5 "T1" [(0, 1), (60, 2)] 100) 1 60).boarded = []) := by
  constructor
  · exact C3_terminal_reversal.1 (Train.new 5 "T1" [(0, 1), (60, 2)] 100)
  · have h := C3_terminal_reversal.2 sortEnum
      [⟨"T1", "T1", [1, 2], [60], 4, true, TrainGenerator.init "T1" 0 4 180 0 24 1000⟩]
      PathTable.init [] (MemmapAllocator.init 0)
      (Train.new 5 "T1" [(0, 1), (60, 2)] 100)
      ⟨5, "T1", [(0, 1), (60, 2)], 100, 0, [], 1, "in_service", 1, some 2, none, 30, 0⟩
      ⟨"T1", "T1", [1, 2], [60], 4, true, TrainGenerator.init "T1" 0 4 180 0 24 1000⟩
      1 60 (by decide) (by decide) (by decide) (by decide)
    exact ⟨h.2.1, h.2.2.2.2.1, h.2.2.2.2.2.1⟩

/-- The train-relevant state of `SimulationLoop`. -/
structure SimState where
  allocator : MemmapAllocator
  lines : List Line
  stations : List (Nat × Station)
  path_table : PathTable
  active_trains : List Train
  current_time : ℚ
  current_tick : Nat
  dt : ℚ
  deriving DecidableEq

/-- Step 3 of `SimulationLoop.step` for one line: `tick` its generator and
turn each make event into a `Train` with a freshly built timetable. -/
def trainOfMake (ln : Line) (t : ℚ) (mk : TrainMake) : Train :=
  Train.new mk.train_id ln.line_id (ln.build_timetable t mk.direction)
    mk.max_capacity mk.direction

def dispatchLine (t : ℚ) (ln : Line) : Line × List Train :=
  let r := ln.train_generator.tick t
  ({ ln with train_generator := r.2 }, r.1.map (trainOfMake ln t))

def dispatchStep (t : ℚ) (acc : List Line × List Train) (ln : Line) :
    List Line × List Train :=
  let r := dispatchLine t ln
  (acc.1 ++ [r.1], acc.2 ++ r.2)

/-- Step 3 of `SimulationLoop.step` (dispatch): every new train is appended
to `active_trains`.  Also returns the list of trains made this tick. -/
def dispatchPhase (st : SimState) : SimState × List Train :=
  let z := st.lines.foldl (dispatchStep st.current_time) ([], [])
  ({ st with lines := z.1, active_trains := st.active_trains ++ z.2 }, z.2)

/-- One iteration of step 4's `for train in self.active_trains` loop,
threading stations and allocator and recording that `train.step` ran. -/
def updStep (enum : Finset Nat → List Nat) (lines : List Line) (pt : PathTable)
    (dt t : ℚ)
    (acc : List Train × List (Nat × Station) × MemmapAllocator × List Nat)
    (tr : Train) : List Train × List (Nat × Station) × MemmapAllocator × List Nat :=
  let r := updateOneTrain enum lines pt acc.2.1 acc.2.2.1 tr dt t
  (acc.1 ++ [r.train], r.stations, r.alloc, acc.2.2.2 ++ [tr.id])

/-- Step 4 of `SimulationLoop.step` (train update): iterate `active_trains`
in order; the second component lists the ids of the trains whose `step`
method was called, in call order. -/
def updatePhase (enum : Finset Nat → List Nat) (st : SimState) :
    SimState × List Nat :=
  let z := st.active_trains.foldl
    (updStep enum st.lines st.path_table st.dt st.current_time)
    ([], st.stations, st.allocator, [])
  ({ st with active_trains := z.1, stations := z.2.1, allocator := z.2.2.1 }, z.2.2.2)

/-- Phases of `SimulationLoop.step` touching `active_trains`: advance the
clock, dispatch (step 3), then train update (step 4).  Phases 1–2 (customer
generation and path assignment) do not touch `active_trains` and are omitted.
Returns the new state, the trains made during dispatch, and the ids of the
trains stepped during the update phase of the same tick. -/
def tickStart (st : SimState) : SimState :=
  { st with current_tick := st.current_tick + 1,
            current_time := st.current_time + st.dt }

def tickPhases (enum : Finset Nat → List Nat) (st : SimState) :
    SimState × List Train × List Nat :=
  let d := dispatchPhase (tickStart st)
  let u := updatePhase enum d.1
  (u.1, d.2, u.2)

theorem updStep_fold_ids (enum : Finset Nat → List Nat) (lines : List Line)
    (pt : PathTable) (dt t : ℚ) :
    ∀ (l : List Train)
      (acc : List Train × List (Nat × Station) × MemmapAllocator × List Nat),
      (l.foldl (updStep enum lines pt dt t) acc).2.2.2 =
        acc.2.2.2 ++ l.map Train.id := by
  intro l
  induction l with
  | nil => intro acc; simp
  | cons tr l ih =>
    intro acc
    rw [List.foldl_cons, ih]
    simp [updStep]

theorem updatePhase_ids (enum : Finset Nat → List Nat) (st : SimState) :
    (updatePhase enum st).2 = st.active_trains.map Train.id := by
  unfold updatePhase
  dsimp only
  rw [updStep_fold_ids]
  simp

theorem dispatchPhase_active (st : SimState) :
    (dispatchPhase st).1.active_trains = st.active_trains ++ (dispatchPhase st).2 :=
  rfl

/-- A concrete one-line network used for the dispatch/step-ordering claim. -/
def lineT1 : Line :=
  ⟨"T1", "T1", [1, 2], [60], 4, true, TrainGenerator.init "T1" 0 4 180 6 22 1000⟩

/-- Initial simulation state: one line, no trains, `dt = 21600` so the first
tick happens at `t = 21600` (06:00, inside service hours). -/
def simC7 : SimState :=
  ⟨MemmapAllocator.init 0, [lineT1], [], PathTable.init, [], 0, 0, 21600⟩

theorem simC7_made :
    (tickPhases sortEnum simC7).2.1 =
      [Train.new 1 "T1" [(21600, 1), (21660, 2)] 1000 1,
       Train.new 2 "T1" [(21600, 2), (21660, 1)] 1000 (-1)] := by
  have h1 : (tickPhases sortEnum simC7).2.1 =
      (lineT1.train_generator.tick (simC7.current_time + simC7.dt)).1.map
        (trainOfMake lineT1 (simC7.current_time + simC7.dt)) := rfl
  have ht : simC7.current_time + simC7.dt = (21600 : ℚ) := by
    norm_num [simC7]
  rw [h1, ht]
  have hgen : lineT1.train_generator = TrainGenerator.init "T1" 0 4 180 6 22 1000 := rfl
  rw [hgen, tick_21600_events]
  have hmax : max (60 : ℚ) 10 = 60 := by norm_num
  simp [trainOfMake, Train.new, lineT1, Line.build_timetable, Line.timetableFrom, hmax]
  norm_num

theorem simC7_stepped : (tickPhases sortEnum simC7).2.2 = [1, 2] := by
  have h1 : (tickPhases sortEnum simC7).2.2 =
      (updatePhase sortEnum (dispatchPhase (tickStart simC7)).1).2 := rfl
  rw [h1, updatePhase_ids, dispatchPhase_active]
  have h2 : (tickStart simC7).active_trains = [] := rfl
  rw [h2, List.nil_append]
  have h3 : (dispatchPhase (tickStart simC7)).2 =
      (tickPhases sortEnum simC7).2.1 := rfl
  rw [h3, simC7_made]
  rfl

/-- **C7 counterexample.**  On the concrete one-line state `simC7`, the tick
at `t = 21600` makes the trains with ids 1 and 2 during dispatch, and the ids
of the trains whose `step` ran during the very same tick's update phase are
exactly `[1, 2]` — the train made on tick `T` is stepped on tick `T`, not
first on `T+1` as the claim states. -/
theorem C7_same_tick_step_counterexample :
    (tickPhases sortEnum simC7).2.1.map Train.id = [1, 2] ∧
    (tickPhases sortEnum simC7).2.2 = [1, 2] ∧
    ¬(∀ tr ∈ (tickPhases sortEnum simC7).2.1,
        tr.id ∉ (tickPhases sortEnum simC7).2.2) := by
  refine ⟨by rw [simC7_made]; rfl, simC7_stepped, ?_⟩
  intro h
  have hmem : Train.new 1 "T1" [(21600, 1), (21660, 2)] 1000 1 ∈
      (tickPhases sortEnum simC7).2.1 := by
    rw [simC7_made]
    exact List.mem_cons_self _ _
  have := h _ hmem
  rw [simC7_stepped] at this
  exact this (by decide)

/-- **C7 (amended).**  A train made (appended to `active_trains`) during the
dispatch phase of tick `T` has its `step` method called already during the
train-update phase of the same tick `T`: dispatch precedes the update loop
and appends to the very list that loop iterates. -/
theorem C7_dispatch_step_ordering :
    ∀ (enum : Finset Nat → List Nat) (st : SimState) (tr : Train),
      tr ∈ (tickPhases enum st).2.1 → tr.id ∈ (tickPhases enum st).2.2 := by
  intro enum st tr hmem
  have h1 : (tickPhases enum st).2.2 =
      (updatePhase enum (dispatchPhase (tickStart st)).1).2 := rfl
  rw [h1, updatePhase_ids, dispatchPhase_active]
  rw [List.map_append, List.mem_append]
  right
  exact List.mem_map_of_mem _ hmem

/-- Witness for the amended C7 at the concrete state `simC7`: the first train
made at `t = 21600` (id 1) is among the ids stepped in the same tick. -/
theorem C7_dispatch_step_ordering_witness :
    (1 : Nat) ∈ (tickPhases sortEnum simC7).2.2 := by
  have hmem : Train.new 1 "T1" [(21600, 1), (21660, 2)] 1000 1 ∈
      (tickPhases sortEnum simC7).2.1 := by
    rw [simC7_made]
    exact List.mem_cons_self _ _
  exact C7_dispatch_step_ordering sortEnum simC7
    (Train.new 1 "T1" [(21600, 1), (21660, 2)] 1000 1) hmem

/-! ### Network multigraph and `find_path` edge selection: `src/rail_sim/map.py` -/

structure MEdge where
  u : Nat
  v : Nat
  weight : ℚ
  line : String
  deriving Repr, DecidableEq

/-- `self.graph.get_edge_data(a, b)` on the `networkx.MultiGraph`: the
parallel edges between the unordered pair `{a, b}`, in insertion order (the
dict of edge keys preserves per-pair insertion order). -/
def get_edge_data (g : List MEdge) (a b : Nat) : List MEdge :=
  g.filter (fun e => (e.u == a && e.v == b) || (e.u == b && e.v == a))

/-- `_rebuild_graph`'s inner loop: one edge per adjacent station pair of a
line, weighted by the segment travel time and tagged with the line code. -/
def lineEdges (ln : Line) : List MEdge :=
  ((ln.station_list.zip ln.station_list.tail).zip ln.time_between_stations).map
    (fun p => ⟨p.1.1, p.1.2, p.2, ln.line_code⟩)

/-- `_rebuild_graph`: all lines' edges, in `self.lines` order. -/
def rebuildGraph (lines : List Line) : List MEdge :=
  (lines.map lineEdges).flatten

/-- The edge choice of `find_path`'s conversion loop for one consecutive node
pair: `first_key = next(iter(edge_data))`, i.e. the first stored parallel
edge; `'Unknown'` is the `.get('line', 'Unknown')` default.  (With no edge at
all the Python code would raise before reaching the default.) -/
def edgeLineFor (g : List MEdge) (a b : Nat) : String :=
  match get_edge_data g a b with
  | e :: _ => e.line
  | [] => "Unknown"

/-- `find_path`'s conversion of the chosen node sequence to segments. -/
def segmentsOfNodePath (g : List MEdge) : List Nat → List Segment
  | a :: b :: rest => (edgeLineFor g a b, a, b) :: segmentsOfNodePath g (b :: rest)
  | _ => []

/-- Modelled from the spec: the tie-break the specification prescribes —
record the lexicographically least line code among the pair's parallel
edges. -/
def specLexLeastLine (g : List MEdge) (a b : Nat) : String :=
  match (get_edge_data g a b).map MEdge.line with
  | [] => "Unknown"
  | l :: ls => ls.foldl min l

/-- Modelled from the spec: segment conversion under the spec's tie-break. -/
def specSegmentsOfNodePath (g : List MEdge) : List Nat → List Segment
  | a :: b :: rest => (specLexLeastLine g a b, a, b) :: specSegmentsOfNodePath g (b :: rest)
  | _ => []

/-- Consecutive nodes joined by at least one edge. -/
def validNodePath (g : List MEdge) : List Nat → Bool
  | a :: b :: rest => !(get_edge_data g a b).isEmpty && validNodePath g (b :: rest)
  | _ => true

/-- The lightest parallel edge of a pair (how Dijkstra relaxes a multigraph
pair). -/
def minEdgeWeight (g : List MEdge) (a b : Nat) : ℚ :=
  match (get_edge_data g a b).map MEdge.weight with
  | [] => 0
  | w :: ws => ws.foldl min w

/-- Total weight of a node sequence. -/
def pathWeight (g : List MEdge) : List Nat → ℚ
  | a :: b :: rest => minEdgeWeight g a b + pathWeight g (b :: rest)
  | _ => 0

/-- `nx.shortest_path(graph, o, d, weight='weight')` characterised: a valid
node sequence from `o` to `d` of minimal summed weight. -/
def IsShortestNodePath (g : List MEdge) (o d : Nat) (np : List Nat) : Prop :=
  validNodePath g np = true ∧ np.head? = some o ∧ np.getLast? = some d ∧
  ∀ np' : List Nat, validNodePath g np' = true → np'.head? = some o →
    np'.getLast? = some d → pathWeight g np ≤ pathWeight g np'

/-- Line "B", registered first. -/
def lineB : Line := ⟨"B", "B", [1, 2], [60], 1, true, TrainGenerator.init "B" 0 1 180 0 24 1000⟩

/-- Line "A", registered second, over the same station pair. -/
def lineA : Line := ⟨"A", "A", [1, 2], [60], 1, true, TrainGenerator.init "A" 0 1 180 0 24 1000⟩

/-- The two-line multigraph: parallel edges between 1 and 2, "B" first. -/
def graphBA : List MEdge := rebuildGraph [lineB, lineA]

theorem graphBA_eval : graphBA = [⟨1, 2, 60, "B"⟩, ⟨1, 2, 60, "A"⟩] := rfl

theorem graphBA_edge_cases (a b : Nat) :
    get_edge_data graphBA a b = [] ∨
    get_edge_data graphBA a b = [⟨1, 2, 60, "B"⟩, ⟨1, 2, 60, "A"⟩] := by
  rw [graphBA_eval]
  unfold get_edge_data
  by_cases hc : (((1 : Nat) == a && (2 : Nat) == b) || ((1 : Nat) == b && (2 : Nat) == a)) = true
  · right
    simp [List.filter, hc]
  · left
    simp only [Bool.not_eq_true] at hc
    simp [List.filter, hc]

theorem graphBA_minWeight (a b : Nat)
    (h : get_edge_data graphBA a b ≠ []) : minEdgeWeight graphBA a b = 60 := by
  rcases graphBA_edge_cases a b with h0 | h0
  · exact absurd h0 h
  · unfold minEdgeWeight
    rw [h0]
    show min (60 : ℚ) 60 = 60
    exact min_self _

theorem graphBA_weight_lb :
    ∀ (rest : List Nat) (a b : Nat),
      validNodePath graphBA (a :: b :: rest) = true →
      (60 : ℚ) ≤ pathWeight graphBA (a :: b :: rest) := by
  intro rest
  induction rest with
  | nil =>
    intro a b hv
    unfold validNodePath at hv
    rw [Bool.and_eq_true] at hv
    have hne : get_edge_data graphBA a b ≠ [] := by
      intro habs
      rw [habs] at hv
      simp [List.isEmpty] at hv
    show (60 : ℚ) ≤ minEdgeWeight graphBA a b + pathWeight graphBA [b]
    rw [graphBA_minWeight a b hne]
    show (60 : ℚ) ≤ 60 + 0
    norm_num
  | cons c rest ih =>
    intro a b hv
    unfold validNodePath at hv
    rw [Bool.and_eq_true] at hv
    have hne : get_edge_data graphBA a b ≠ [] := by
      intro habs
      rw [habs] at hv
      simp [List.isEmpty] at hv
    have htail := ih b c hv.2
    show (60 : ℚ) ≤ minEdgeWeight graphBA a b + pathWeight graphBA (b :: c :: rest)
    rw [graphBA_minWeight a b hne]
    linarith

/-- **C6 counterexample.**  In the multigraph built from lines "B" then "A"
over the same station pair, `[1, 2]` is the (unique shape of) shortest node
sequence from 1 to 2, the pair carries two parallel edges of distinct lines
`["B", "A"]`, and `find_path`'s conversion records line "B" — the first
stored edge — whereas the spec's tie-break would record the
lexicographically least line "A". -/
theorem C6_tie_break_counterexample :
    IsShortestNodePath graphBA 1 2 [1, 2] ∧
    (get_edge_data graphBA 1 2).map MEdge.line = ["B", "A"] ∧
    segmentsOfNodePath graphBA [1, 2] = [("B", 1, 2)] ∧
    specSegmentsOfNodePath graphBA [1, 2] = [("A", 1, 2)] ∧
    segmentsOfNodePath graphBA [1, 2] ≠ specSegmentsOfNodePath graphBA [1, 2] := by
  refine ⟨⟨by decide, rfl, rfl, ?_⟩, rfl, ?_, ?_, ?_⟩
  · intro np hv hh hl
    have hw : pathWeight graphBA [1, 2] = 60 := by
      show minEdgeWeight graphBA 1 2 + 0 = 60
      rw [graphBA_minWeight 1 2 (by decide)]
      norm_num
    rw [hw]
    cases np with
    | nil => cases hh
    | cons x rest =>
      cases rest with
      | nil =>
        simp only [List.head?_cons, Option.some.injEq] at hh
        have : x = 2 := by simpa using hl
        omega
      | cons y rest' => exact graphBA_weight_lb rest' x y hv
  · rfl
  · show [(specLexLeastLine graphBA 1 2, 1, 2)] = [("A", 1, 2)]
    have : specLexLeastLine graphBA 1 2 = "A" := by
      show min "B" "A" = "A"
      rw [min_eq_right]
      rw [String.le_iff_toList_le]
      decide
    rw [this]
  · intro habs
    have h1 : segmentsOfNodePath graphBA [1, 2] = [("B", 1, 2)] := rfl
    have h2 : specSegmentsOfNodePath graphBA [1, 2] = [("A", 1, 2)] := by
      show [(specLexLeastLine graphBA 1 2, 1, 2)] = [("A", 1, 2)]
      have : specLexLeastLine graphBA 1 2 = "A" := by
        show min "B" "A" = "A"
        rw [min_eq_right]
        rw [String.le_iff_toList_le]
        decide
      rw [this]
    rw [h1, h2] at habs
    simp at habs

/-- Whether a line contributes an edge between the unordered pair `{a, b}`
(i.e. covers the pair adjacently). -/
def lineCovers (ln : Line) (a b : Nat) : Bool :=
  (lineEdges ln).any (fun e => (e.u == a && e.v == b) || (e.u == b && e.v == a))

theorem lineEdges_line {ln : Line} {e : MEdge} (h : e ∈ lineEdges ln) :
    e.line = ln.line_code := by
  unfold lineEdges at h
  rcases List.mem_map.mp h with ⟨p, -, rfl⟩
  rfl

/-- **C6 (amended).**  In `Map.find_path`'s conversion of the chosen node
sequence to segments, the segment recorded for a consecutive node pair
carries the line code of the *first-inserted* parallel edge — that is, of the
first line in `self.lines` order that covers the pair — not the
lexicographically least line code; the conversion processes the pairs in
sequence order. -/
theorem C6_insertion_order_tie_break :
    (∀ (lines : List Line) (a b : Nat),
      edgeLineFor (rebuildGraph lines) a b =
        ((lines.find? (fun ln => lineCovers ln a b)).map Line.line_code).getD
          "Unknown") ∧
    (∀ (g : List MEdge) (a b : Nat) (rest : List Nat),
      segmentsOfNodePath g (a :: b :: rest) =
        (edgeLineFor g a b, a, b) :: segmentsOfNodePath g (b :: rest)) := by
  constructor
  · intro lines a b
    induction lines with
    | nil => rfl
    | cons ln rest ih =>
      have hsplit : get_edge_data (rebuildGraph (ln :: rest)) a b =
          get_edge_data (lineEdges ln) a b ++ get_edge_data (rebuildGraph rest) a b := by
        unfold rebuildGraph get_edge_data
        simp [List.filter_append]
      cases hf : get_edge_data (lineEdges ln) a b with
      | nil =>
        have hcov : lineCovers ln a b = false := by
          unfold lineCovers
          rw [List.any_eq_false]
          intro e he
          have := List.filter_eq_nil_iff.mp hf e he
          simpa using this
        have hstep : edgeLineFor (rebuildGraph (ln :: rest)) a b =
            edgeLineFor (rebuildGraph rest) a b := by
          unfold edgeLineFor
          rw [hsplit, hf, List.nil_append]
        rw [hstep, ih, List.find?_cons_of_neg _ (by simp [hcov])]
      | cons e es =>
        have hmem : e ∈ lineEdges ln := by
          have : e ∈ get_edge_data (lineEdges ln) a b := by
            rw [hf]
            exact List.mem_cons_self _ _
          exact List.mem_of_mem_filter this
        have hpe : ((e.u == a && e.v == b) || (e.u == b && e.v == a)) = true := by
          have hmem2 : e ∈ List.filter
              (fun x => (x.u == a && x.v == b) || (x.u == b && x.v == a))
              (lineEdges ln) := by
            have h3 : e ∈ get_edge_data (lineEdges ln) a b := by
              rw [hf]
              exact List.mem_cons_self _ _
            exact h3
          have h4 := List.of_mem_filter hmem2
          simpa using h4
        have hcov : lineCovers ln a b = true := by
          unfold lineCovers
          rw [List.any_eq_true]
          exact ⟨e, hmem, hpe⟩
        have hstep : edgeLineFor (rebuildGraph (ln :: rest)) a b = e.line := by
          unfold edgeLineFor
          rw [hsplit, hf, List.cons_append]
        rw [hstep, lineEdges_line hmem]
        have hfind : (ln :: rest).find? (fun l => lineCovers l a b) = some ln := by
          simp [List.find?, hcov]
        rw [hfind]
        rfl
  · intro g a b rest
    rfl

/-! ### Customer generator: `src/src/rail_sim/customer_gen.py` -/

/-- One iteration of `generate_customers`' write loop: stamp a fresh id
(`get_next_id`) and fill the whole row. -/
def writeCustomerRow (station_id : Nat) (t : ℚ) (dest : Nat) (speed : ℚ)
    (a : MemmapAllocator) (idx : Nat) : MemmapAllocator :=
  let g := a.get_next_id
  let row : CustomerRecord :=
    ⟨g.1, station_id, dest, station_id, 0, 0, 0, 0, t, 0, 0, 0, speed⟩
  { g.2 with memmap := memSet g.2.memmap idx (fun _ => row) }

/-- The write loop over the allocated indices (`for i, idx in enumerate(...)`). -/
def writeRows (station_id : Nat) (t : ℚ) (destDraw : Nat → Nat)
    (speedDraw : Nat → ℚ) (a : MemmapAllocator) (idxs : List Nat) :
    MemmapAllocator :=
  idxs.enum.foldl
    (fun acc p => writeCustomerRow station_id t (destDraw p.1) (speedDraw p.1) acc p.2) a

/-- `generate_customers(t, dt, possible_destinations)`.  The RNG draws enter
as oracles: `n_arrivals` is the Poisson draw `rng.poisson(rate(t)*dt)`, and
`destDraw k` / `speedDraw k` are the `k`-th results of
`rng.choice(possible_destinations, size=n)` / `rng.uniform(1.0, 1.5)`.
`none` in the first component models a raised exception — `RuntimeError` from
`allocate_indices`, or `ValueError` from `rng.choice` when
`possible_destinations` is empty — and the returned allocator keeps every
mutation made before the raise (indices are allocated *before* `rng.choice`
runs). -/
def generate_customers (a : MemmapAllocator) (station_id : Nat)
    (n_arrivals : Nat) (destDraw : Nat → Nat) (speedDraw : Nat → ℚ)
    (t : ℚ) (possible_destinations : List Nat) :
    Option (List Nat) × MemmapAllocator :=
  if n_arrivals = 0 then (some [], a)
  else
    let r := a.allocate_indices n_arrivals
    match r.1 with
    | none => (none, r.2)
    | some idxs =>
      if possible_destinations = [] then (none, r.2)
      else (some idxs, writeRows station_id t destDraw speedDraw r.2 idxs)

/-- **C8 counterexample.**  With a fresh one-slot record store, a Poisson
draw of `n = 1` and an *empty* destination list, `generate_customers` does
not return an empty index array: it raises (`rng.choice` on an empty
sequence) *after* allocating an index, leaving the allocator mutated (row 0
claimed with id 1, `next_id` bumped to 2).  This refutes the claim that an
empty `candidate_destinations` yields an empty result with no allocation. -/
theorem C8_empty_destinations_counterexample :
    (generate_customers (MemmapAllocator.init 1) 4 1 (fun _ => 0) (fun _ => 1) 0 []).1 =
      none ∧
    (generate_customers (MemmapAllocator.init 1) 4 1 (fun _ => 0) (fun _ => 1) 0 []).2 ≠
      MemmapAllocator.init 1 ∧
    (generate_customers (MemmapAllocator.init 1) 4 1 (fun _ => 0) (fun _ => 1) 0
        []).2.next_id = 2 ∧
    ¬((generate_customers (MemmapAllocator.init 1) 4 1 (fun _ => 0) (fun _ => 1) 0 []).1 =
        some [] ∧
      (generate_customers (MemmapAllocator.init 1) 4 1 (fun _ => 0) (fun _ => 1) 0 []).2 =
        MemmapAllocator.init 1) := by
  refine ⟨by decide, by decide, by decide, ?_⟩
  intro h
  exact absurd h.1 (by decide)

/-- **C8 (amended).**  `generate_customers` returns empty without touching
the allocator when the Poisson draw is 0; but when the draw is positive and
`candidate_destinations` is empty, it first allocates the `n` indices
(mutating the record store) and then raises `ValueError` from `rng.choice`
instead of returning an empty array. -/
theorem C8_degenerate_inputs :
    (∀ (a : MemmapAllocator) (sid : Nat) (destDraw : Nat → Nat)
      (speedDraw : Nat → ℚ) (t : ℚ) (dests : List Nat),
      generate_customers a sid 0 destDraw speedDraw t dests = (some [], a)) ∧
    (∀ (a : MemmapAllocator) (sid n : Nat) (destDraw : Nat → Nat)
      (speedDraw : Nat → ℚ) (t : ℚ),
      0 < n →
      generate_customers a sid n destDraw speedDraw t [] =
        (none, (a.allocate_indices n).2)) := by
  constructor
  · intro a sid destDraw speedDraw t dests
    unfold generate_customers
    rw [if_pos rfl]
  · intro a sid n destDraw speedDraw t hn
    unfold generate_customers
    rw [if_neg (by omega)]
    cases hr : (a.allocate_indices n).1 with
    | none =>
      dsimp only
      rw [hr]
    | some idxs =>
      dsimp only
      rw [hr]
      simp

/-- Witness for the amended C8: a fresh two-slot store with `n = 0` returns
empty unchanged; with `n = 2` and no destinations it raises after allocating
both slots. -/
theorem C8_degenerate_inputs_witness :
    generate_customers (MemmapAllocator.init 2) 7 0 (fun _ => 0) (fun _ => 1) 5 [9] =
      (some [], MemmapAllocator.init 2) ∧
    generate_customers (MemmapAllocator.init 2) 7 2 (fun _ => 0) (fun _ => 1) 5 [] =
      (none, ((MemmapAllocator.init 2).allocate_indices 2).2) := by
  constructor
  · exact C8_degenerate_inputs.1 (MemmapAllocator.init 2) 7 (fun _ => 0) (fun _ => 1) 5 [9]
  · exact C8_degenerate_inputs.2 (MemmapAllocator.init 2) 7 2 (fun _ => 0) (fun _ => 1) 5
      (by decide)

/-! ### C9: determinism and Python's randomized string hash -/

theorem padWidth_small {c : Nat} (h1 : 1 ≤ c) (h9 : c < 10) : padWidth c = 4 := by
  unfold padWidth
  have hlog : Nat.log 10 c = 0 := Nat.log_eq_zero_iff.mpr (Or.inl h9)
  rw [hlog]
  norm_num

theorem createTrainId_small (h : Int) {c : Nat} (h1 : 1 ≤ c) (h9 : c < 10) :
    createTrainId h c = (h.emod 1000).toNat * 10000 + c := by
  unfold createTrainId
  rw [padWidth_small h1 h9]
  norm_num

/-- `tick` of a fresh generator at 06:00, with the process hash salt left
symbolic: both events are emitted and their train ids embed the salt. -/
theorem tick_21600_events_salt (salt : Int) :
    ((TrainGenerator.init "T1" salt 4 180 6 22 1000).tick 21600).1 =
      [⟨createTrainId salt 1, "T1", 1, 21600, 1000⟩,
       ⟨createTrainId salt 2, "T1", -1, 21600, 1000⟩] := by
  have hhours : ¬(TrainGenerator.hourOfDay 21600 <
      (TrainGenerator.init "T1" salt 4 180 6 22 1000).service_start ∨
      TrainGenerator.hourOfDay 21600 ≥
      (TrainGenerator.init "T1" salt 4 180 6 22 1000).service_end) := by
    rw [hourOfDay_21600]
    simp [TrainGenerator.init]
    norm_num
  rw [TrainGenerator.tick_in_hours hhours rfl rfl]
  simp [TrainGenerator.tickDir, TrainGenerator.init, TrainGenerator.headwayOk,
    TrainGenerator.lastDep, TrainGenerator.allocate_train,
    TrainGenerator.create_make_event, TrainGenerator.setLastDep]

/-- **C9 counterexample.**  Two `TrainGenerator`s built from identical
constructor inputs (`line_id = "T1"`, fleet 4, headway 180, hours 6–22,
capacity 1000) — same seeds, same insertion order, same configuration — but
running under different Python hash salts (`hash("T1") = 0` vs `1`) emit
*different* make events at `t = 21600`: the train ids embed
`hash(line_id) % 1000`, which is process-randomized, so the run is not
reproducible across processes. -/
theorem C9_hash_salt_counterexample :
    ((TrainGenerator.init "T1" 0 4 180 6 22 1000).tick 21600).1.map
      TrainMake.train_id = [1, 2] ∧
    ((TrainGenerator.init "T1" 1 4 180 6 22 1000).tick 21600).1.map
      TrainMake.train_id = [10001, 10002] ∧
    ((TrainGenerator.init "T1" 0 4 180 6 22 1000).tick 21600).1 ≠
      ((TrainGenerator.init "T1" 1 4 180 6 22 1000).tick 21600).1 := by
  have h0 : ((TrainGenerator.init "T1" 0 4 180 6 22 1000).tick 21600).1.map
      TrainMake.train_id = [1, 2] := by
    rw [tick_21600_events_salt 0]
    simp [createTrainId]
    decide
  have h1 : ((TrainGenerator.init "T1" 1 4 180 6 22 1000).tick 21600).1.map
      TrainMake.train_id = [10001, 10002] := by
    rw [tick_21600_events_salt 1]
    rw [List.map_cons, List.map_cons, List.map_nil]
    rw [show (⟨createTrainId 1 1, "T1", 1, 21600, 1000⟩ : TrainMake).train_id =
      createTrainId 1 1 from rfl]
    rw [show (⟨createTrainId 1 2, "T1", -1, 21600, 1000⟩ : TrainMake).train_id =
      createTrainId 1 2 from rfl]
    rw [createTrainId_small 1 (by norm_num) (by norm_num),
        createTrainId_small 1 (by norm_num) (by norm_num)]
    norm_num
  refine ⟨h0, h1, ?_⟩
  intro habs
  rw [habs] at h0
  rw [h1] at h0
  cases h0

theorem createTrainId_strictMono (h : Int) : StrictMono (createTrainId h) := by
  intro c1 c2 hlt
  unfold createTrainId
  have hlog : Nat.log 10 c1 ≤ Nat.log 10 c2 := Nat.log_mono_right hlt.le
  have hpad : padWidth c1 ≤ padWidth c2 := by
    unfold padWidth
    exact max_le_max (le_refl 4) (by omega)
  rcases Nat.eq_or_lt_of_le hpad with heq | hpl
  · rw [heq]
    exact Nat.add_lt_add_left hlt _
  · have hc1B : c1 < 10 ^ padWidth c1 := by
      have ha := Nat.lt_pow_succ_log_self (by norm_num : 1 < 10) c1
      have hb : Nat.log 10 c1 + 1 ≤ padWidth c1 := le_max_right _ _
      exact lt_of_lt_of_le ha (Nat.pow_le_pow_right (by norm_num) hb)
    have hpadc2 : padWidth c2 = Nat.log 10 c2 + 1 := by
      have h4 : 4 ≤ padWidth c1 := le_max_left _ _
      rcases le_or_lt (Nat.log 10 c2 + 1) 4 with hle | hgt
      · exfalso
        have : padWidth c2 = 4 := by
          unfold padWidth
          exact max_eq_left hle
        omega
      · unfold padWidth
        exact max_eq_right hgt.le
    have hBc2 : 10 ^ padWidth c1 ≤ c2 := by
      have hstep : padWidth c1 ≤ Nat.log 10 c2 := by omega
      calc 10 ^ padWidth c1 ≤ 10 ^ Nat.log 10 c2 :=
            Nat.pow_le_pow_right (by norm_num) hstep
        _ ≤ c2 := Nat.pow_log_le_self 10 (by omega)
    have hmul : (h.emod 1000).toNat * 10 ^ padWidth c1 ≤
        (h.emod 1000).toNat * 10 ^ padWidth c2 :=
      Nat.mul_le_mul_left _ (Nat.pow_le_pow_right (by norm_num) hpad)
    calc (h.emod 1000).toNat * 10 ^ padWidth c1 + c1
        < (h.emod 1000).toNat * 10 ^ padWidth c1 + 10 ^ padWidth c1 :=
          Nat.add_lt_add_left hc1B _
      _ ≤ (h.emod 1000).toNat * 10 ^ padWidth c2 + c2 := Nat.add_le_add hmul hBc2

namespace TrainGenerator

/-- The constructor-visible configuration and dispatch bookkeeping of a
generator — everything except the process hash salt and the concrete train
ids. -/
structure Config where
  line_id : String
  fleet_size : Nat
  headway : ℚ
  service_start : ℚ
  service_end : ℚ
  capacity : Nat
  train_id_counter : Nat
  last_departure_pos : Option ℚ
  last_departure_neg : Option ℚ
  deriving DecidableEq

def config (g : TrainGenerator) : Config :=
  ⟨g.line_id, g.fleet_size, g.headway, g.service_start, g.service_end, g.capacity,
   g.train_id_counter, g.last_departure_pos, g.last_departure_neg⟩

/-- Generator states reachable from `init` by `tick`s alone: the idle pool is
empty and the active set holds exactly the minted ids `1..counter`. -/
def FreshGen (g : TrainGenerator) : Prop :=
  g.idle_pool = [] ∧
  g.active_trains = (Finset.range g.train_id_counter).image
    (fun k => createTrainId g.hash_val (k + 1))

/-- A make event stripped of its train id. -/
def makeObs (m : TrainMake) : String × Int × ℚ × Nat :=
  (m.line_id, m.direction, m.depart_time, m.max_capacity)

theorem freshGen_card {g : TrainGenerator} (hf : FreshGen g) :
    g.active_trains.card = g.train_id_counter := by
  have hinj : Function.Injective (fun k => createTrainId g.hash_val (k + 1)) := by
    intro k1 k2 hk
    have := (createTrainId_strictMono g.hash_val).injective hk
    omega
  rw [hf.2, Finset.card_image_of_injective _ hinj, Finset.card_range]

theorem freshGen_init (lid : String) (salt : Int) (fs : Nat) (hw s e : ℚ) (cap : Nat) :
    FreshGen (init lid salt fs hw s e cap) := by
  constructor
  · rfl
  · simp [init]

theorem allocate_fresh {g : TrainGenerator} (hf : FreshGen g) :
    g.allocate_train = (if g.active_trains.card < g.fleet_size then
      some (createTrainId g.hash_val (g.train_id_counter + 1),
        { g with train_id_counter := g.train_id_counter + 1,
                 active_trains := insert
                   (createTrainId g.hash_val (g.train_id_counter + 1)) g.active_trains })
      else none) := by
  unfold allocate_train
  rw [hf.1]
  rfl

theorem setLastDep_fields (g : TrainGenerator) (d : Int) (t : ℚ) :
    (g.setLastDep d t).idle_pool = g.idle_pool ∧
    (g.setLastDep d t).active_trains = g.active_trains ∧
    (g.setLastDep d t).train_id_counter = g.train_id_counter ∧
    (g.setLastDep d t).hash_val = g.hash_val := by
  unfold setLastDep
  by_cases hd : d = 1 <;> simp [hd]

theorem freshGen_alloc_set {g : TrainGenerator} (hf : FreshGen g) (d : Int) (t : ℚ) :
    FreshGen (TrainGenerator.setLastDep
      { g with train_id_counter := g.train_id_counter + 1,
               active_trains := insert
                 (createTrainId g.hash_val (g.train_id_counter + 1)) g.active_trains }
      d t) := by
  have hfl := setLastDep_fields
    { g with train_id_counter := g.train_id_counter + 1,
             active_trains := insert
               (createTrainId g.hash_val (g.train_id_counter + 1)) g.active_trains } d t
  constructor
  · rw [hfl.1]
    exact hf.1
  · rw [hfl.2.1, hfl.2.2.1, hfl.2.2.2]
    show insert (createTrainId g.hash_val (g.train_id_counter + 1)) g.active_trains =
      (Finset.range (g.train_id_counter + 1)).image
        (fun k => createTrainId g.hash_val (k + 1))
    rw [hf.2, Finset.range_succ, Finset.image_insert]

theorem tickDir_salt (g1 g2 : TrainGenerator) (t : ℚ) (d : Int)
    (hcfg : config g1 = config g2) (hf1 : FreshGen g1) (hf2 : FreshGen g2) :
    (g1.tickDir t d).1.map makeObs = (g2.tickDir t d).1.map makeObs ∧
    config (g1.tickDir t d).2 = config (g2.tickDir t d).2 ∧
    FreshGen (g1.tickDir t d).2 ∧ FreshGen (g2.tickDir t d).2 := by
  have hline : g1.line_id = g2.line_id := congrArg Config.line_id hcfg
  have hfleet : g1.fleet_size = g2.fleet_size := congrArg Config.fleet_size hcfg
  have hhw : g1.headway = g2.headway := congrArg Config.headway hcfg
  have hstart : g1.service_start = g2.service_start := congrArg Config.service_start hcfg
  have hend : g1.service_end = g2.service_end := congrArg Config.service_end hcfg
  have hcap : g1.capacity = g2.capacity := congrArg Config.capacity hcfg
  have hcount : g1.train_id_counter = g2.train_id_counter :=
    congrArg Config.train_id_counter hcfg
  have hpos : g1.last_departure_pos = g2.last_departure_pos :=
    congrArg Config.last_departure_pos hcfg
  have hneg : g1.last_departure_neg = g2.last_departure_neg :=
    congrArg Config.last_departure_neg hcfg
  have hcard : (g1.active_trains.card < g1.fleet_size) ↔
      (g2.active_trains.card < g2.fleet_size) := by
    rw [freshGen_card hf1, freshGen_card hf2, hcount, hfleet]
  have hok : g1.headwayOk d t = g2.headwayOk d t := by
    unfold headwayOk lastDep
    rw [hpos, hneg, hhw]
  unfold tickDir
  by_cases hc : g1.active_trains.card < g1.fleet_size
  · rw [if_pos hc, if_pos (hcard.mp hc)]
    by_cases hkk : g1.headwayOk d t = true
    · rw [if_pos hkk, if_pos (show g2.headwayOk d t = true by rw [← hok]; exact hkk)]
      rw [allocate_fresh hf1, allocate_fresh hf2]
      rw [if_pos hc, if_pos (hcard.mp hc)]
      refine ⟨?_, ?_, ?_, ?_⟩
      · simp [create_make_event, makeObs, hline, hcap]
      · show config (TrainGenerator.setLastDep _ d t) = config (TrainGenerator.setLastDep _ d t)
        unfold config setLastDep
        by_cases hd : d = 1 <;>
          simp [hd, hline, hfleet, hhw, hstart, hend, hcap, hcount, hpos, hneg]
      · exact freshGen_alloc_set hf1 d t
      · exact freshGen_alloc_set hf2 d t
    · rw [if_neg hkk, if_neg (show ¬g2.headwayOk d t = true by rw [← hok]; exact hkk)]
      exact ⟨rfl, hcfg, hf1, hf2⟩
  · rw [if_neg hc, if_neg (fun habs => hc (hcard.mpr habs))]
    exact ⟨rfl, hcfg, hf1, hf2⟩

theorem tick_salt (g1 g2 : TrainGenerator) (t : ℚ)
    (hcfg : config g1 = config g2) (hf1 : FreshGen g1) (hf2 : FreshGen g2) :
    (g1.tick t).1.map makeObs = (g2.tick t).1.map makeObs ∧
    config (g1.tick t).2 = config (g2.tick t).2 ∧
    FreshGen (g1.tick t).2 ∧ FreshGen (g2.tick t).2 := by
  have hstart : g1.service_start = g2.service_start := congrArg Config.service_start hcfg
  have hend : g1.service_end = g2.service_end := congrArg Config.service_end hcfg
  unfold tick
  by_cases hh : hourOfDay t < g1.service_start ∨ hourOfDay t ≥ g1.service_end
  · rw [if_pos hh, if_pos (show hourOfDay t < g2.service_start ∨
      hourOfDay t ≥ g2.service_end by rw [← hstart, ← hend]; exact hh)]
    exact ⟨rfl, hcfg, hf1, hf2⟩
  · rw [if_neg hh, if_neg (show ¬(hourOfDay t < g2.service_start ∨
      hourOfDay t ≥ g2.service_end) by rw [← hstart, ← hend]; exact hh)]
    have h1 := tickDir_salt g1 g2 t 1 hcfg hf1 hf2
    have h2 := tickDir_salt (g1.tickDir t 1).2 (g2.tickDir t 1).2 t (-1)
      h1.2.1 h1.2.2.1 h1.2.2.2
    refine ⟨?_, h2.2.1, h2.2.2.1, h2.2.2.2⟩
    dsimp only
    rw [List.map_append, List.map_append, h1.1, h2.1]

theorem runGen_salt (ts : List ℚ) :
    ∀ (g1 g2 : TrainGenerator), config g1 = config g2 → FreshGen g1 → FreshGen g2 →
      (g1.runGen ts).1.map (List.map makeObs) =
        (g2.runGen ts).1.map (List.map makeObs) := by
  induction ts with
  | nil =>
    intro g1 g2 _ _ _
    rfl
  | cons t ts ih =>
    intro g1 g2 hcfg hf1 hf2
    have h := tick_salt g1 g2 t hcfg hf1 hf2
    show ((g1.tick t).1 :: ((g1.tick t).2.runGen ts).1).map (List.map makeObs) =
      ((g2.tick t).1 :: ((g2.tick t).2.runGen ts).1).map (List.map makeObs)
    rw [List.map_cons, List.map_cons, h.1, ih _ _ h.2.1 h.2.2.1 h.2.2.2]

theorem tickDir_ids {g : TrainGenerator} (hf : FreshGen g) (t : ℚ) (d : Int) :
    (∀ m ∈ (g.tickDir t d).1, ∃ c, m.train_id = createTrainId g.hash_val c) ∧
    FreshGen (g.tickDir t d).2 ∧ (g.tickDir t d).2.hash_val = g.hash_val := by
  unfold tickDir
  by_cases hc : g.active_trains.card < g.fleet_size
  · rw [if_pos hc]
    by_cases hkk : g.headwayOk d t = true
    · rw [if_pos hkk]
      rw [allocate_fresh hf, if_pos hc]
      refine ⟨?_, freshGen_alloc_set hf d t, ?_⟩
      · intro m hm
        rw [List.mem_singleton] at hm
        subst hm
        exact ⟨g.train_id_counter + 1, rfl⟩
      · exact (setLastDep_fields _ d t).2.2.2
    · rw [if_neg hkk]
      exact ⟨fun m hm => absurd hm (List.not_mem_nil m), hf, rfl⟩
  · rw [if_neg hc]
    exact ⟨fun m hm => absurd hm (List.not_mem_nil m), hf, rfl⟩

theorem tick_ids {g : TrainGenerator} (hf : FreshGen g) (t : ℚ) :
    (∀ m ∈ (g.tick t).1, ∃ c, m.train_id = createTrainId g.hash_val c) ∧
    FreshGen (g.tick t).2 ∧ (g.tick t).2.hash_val = g.hash_val := by
  unfold tick
  by_cases hh : hourOfDay t < g.service_start ∨ hourOfDay t ≥ g.service_end
  · rw [if_pos hh]
    exact ⟨fun m hm => absurd hm (List.not_mem_nil m), hf, rfl⟩
  · rw [if_neg hh]
    have h1 := tickDir_ids hf t 1
    have h2 := tickDir_ids h1.2.1 t (-1)
    refine ⟨?_, h2.2.1, h2.2.2.trans h1.2.2⟩
    intro m hm
    dsimp only at hm
    rcases List.mem_append.mp hm with hm | hm
    · exact h1.1 m hm
    · rcases h2.1 m hm with ⟨c, hcc⟩
      exact ⟨c, by rw [hcc, h1.2.2]⟩

end TrainGenerator

/-- **C9 (amended).**  Reproducibility holds only modulo Python's per-process
string-hash salt: two runs of the per-line dispatcher from freshly
constructed generators with the same configuration (line id, fleet size,
headway, service hours, capacity) and the same tick times produce identical
make-event streams *up to train ids* — times, directions, line ids and
capacities coincide for any pair of hash salts — while every emitted train id
equals `createTrainId hash(line_id) counter` and therefore depends on the
salt; fixing the salt (e.g. `PYTHONHASHSEED`) makes the runs fully
identical. -/
theorem C9_determinism_modulo_hash_salt :
    (∀ (lid : String) (salt1 salt2 : Int) (fs : Nat) (hw s e : ℚ) (cap : Nat)
      (ts : List ℚ),
      ((TrainGenerator.init lid salt1 fs hw s e cap).runGen ts).1.map
        (List.map TrainGenerator.makeObs) =
      ((TrainGenerator.init lid salt2 fs hw s e cap).runGen ts).1.map
        (List.map TrainGenerator.makeObs)) ∧
    (∀ (g : TrainGenerator) (t : ℚ) (m : TrainMake),
      TrainGenerator.FreshGen g → m ∈ (g.tick t).1 →
      ∃ c, m.train_id = createTrainId g.hash_val c) := by
  constructor
  · intro lid salt1 salt2 fs hw s e cap ts
    exact TrainGenerator.runGen_salt ts _ _ rfl
      (TrainGenerator.freshGen_init lid salt1 fs hw s e cap)
      (TrainGenerator.freshGen_init lid salt2 fs hw s e cap)
  · intro g t m hf hm
    exact (TrainGenerator.tick_ids hf t).1 m hm

/-- Witness for the amended C9: with salts 0 and 1 on the same configuration,
a two-tick run has identical id-stripped event streams, and the first event
of the `t = 21600` tick under salt 1 carries a `createTrainId`-shaped id. -/
theorem C9_determinism_modulo_hash_salt_witness :
    (((TrainGenerator.init "T1" 0 4 180 6 22 1000).runGen [21600, 21700]).1.map
      (List.map TrainGenerator.makeObs) =
    ((TrainGenerator.init "T1" 1 4 180 6 22 1000).runGen [21600, 21700]).1.map
      (List.map TrainGenerator.makeObs)) ∧
    (∃ c, (⟨createTrainId 1 1, "T1", 1, 21600, 1000⟩ : TrainMake).train_id =
      createTrainId (TrainGenerator.init "T1" 1 4 180 6 22 1000).hash_val c) := by
  constructor
  · exact C9_determinism_modulo_hash_salt.1 "T1" 0 1 4 180 6 22 1000 [21600, 21700]
  · exact C9_determinism_modulo_hash_salt.2
      (TrainGenerator.init "T1" 1 4 180 6 22 1000) 21600
      ⟨createTrainId 1 1, "T1", 1, 21600, 1000⟩
      (TrainGenerator.freshGen_init "T1" 1 4 180 6 22 1000)
      (by rw [tick_21600_events_salt 1]; exact List.mem_cons_self _ _)
